import Mathlib

/-!
Verification of the nerdcal calendar library (IFC, Positivist, Seasonal calendars).

Shallow embedding conventions:
* Python integers are modelled as `Int`.  Python `//` and `%` have floor/Euclidean
  semantics; all divisors appearing in the source are positive literals, for which
  Lean's `Int` division `/` (`Int.ediv`) and `%` (`Int.emod`) agree with Python exactly.
* Python lists of ints are `List Int`; `l[i]` is modelled by `List.getD` (every use
  site is proved in bounds, so the default value is never taken).
* `bisect.bisect` is only applied to sorted lists in the source; on a sorted list it
  returns the index of the first element exceeding the probe, which `bisect` below
  computes.
* A constructor that raises `ValueError` is modelled by a total constructor plus a
  decidable validity predicate (`valid`), mirroring `__post_init__`; "construction
  succeeds" is `valid`.
-/

/-- From nerdcal/utils.py: `is_leap_year`. -/
def is_leap_year (year : Int) : Bool :=
  year % 4 == 0 && (year % 100 != 0 || year % 400 == 0)

/-- From nerdcal/utils.py and nerdcal/_base.py: `days_before_year`. -/
def days_before_year (year : Int) : Int :=
  (year - 1) * 365 + (year - 1) / 4 - (year - 1) / 100 + (year - 1) / 400

/-- From nerdcal/_base.py: `DI400Y = days_before_year(401)`. -/
def DI400Y : Int := days_before_year 401

/-- From nerdcal/_base.py: `DI100Y = days_before_year(101)`. -/
def DI100Y : Int := days_before_year 101

/-- From nerdcal/_base.py: `DI4Y = days_before_year(5)`. -/
def DI4Y : Int := days_before_year 5

/-- From nerdcal/ifc.py: `_days_in_month(year, month)` (also inherited by
PositivistDate, whose own `_days_in_month` classmethod is never called). -/
def ifc_days_in_month (year month : Int) : Int :=
  if (month = 6 ∧ is_leap_year year = true) ∨ month = 13 then 29 else 28

/-- From nerdcal/ifc.py: `_days_before_month(is_leap)`, the cumulative list
`[28*i for i in range(6)] + [28*i+1 for i in range(6,13)]` resp. `[28*i for i in range(13)]`. -/
def days_before_month (leap : Bool) : List Int :=
  if leap then
    ((List.range 6).map (fun i => 28 * (i : Int))) ++
      ((List.range' 6 7).map (fun i => 28 * (i : Int) + 1))
  else (List.range 13).map (fun i => 28 * (i : Int))

/-- Model of `bisect.bisect` restricted to sorted lists (every call site in the
source passes a sorted cumulative table): index of the first entry exceeding `v`. -/
def bisect (l : List Int) (v : Int) : Int :=
  match l with
  | [] => 0
  | x :: xs => if x ≤ v then 1 + bisect xs v else 0

/-- Closed form of the IFC days-before-month table (verification helper). -/
def month_start (leap : Bool) (m : Int) : Int :=
  28 * (m - 1) + (if leap = true ∧ 7 ≤ m then 1 else 0)

/-- Closed form of the IFC month length table (verification helper). -/
def month_len (leap : Bool) (m : Int) : Int :=
  if (m = 6 ∧ leap = true) ∨ m = 13 then 29 else 28

/-- Structured date of the International Fixed Calendar (nerdcal/ifc.py, `IFCDate`). -/
structure IFCDate where
  year : Int
  month : Int
  day : Int
deriving DecidableEq

/-- Validation performed by `IFCDate.__post_init__`: construction succeeds iff this holds. -/
def IFCDate.valid (d : IFCDate) : Prop :=
  1 ≤ d.year ∧ d.year ≤ 9999 ∧ 1 ≤ d.month ∧ d.month ≤ 13 ∧
  1 ≤ d.day ∧ d.day ≤ ifc_days_in_month d.year d.month

instance (d : IFCDate) : Decidable d.valid := by
  unfold IFCDate.valid
  exact inferInstance

/-- From nerdcal/ifc.py: `IFCDate.toordinal`. -/
def IFCDate.toordinal (d : IFCDate) : Int :=
  days_before_year d.year +
    (days_before_month (is_leap_year d.year)).getD (d.month - 1).toNat 0 + d.day

/-- From nerdcal/ifc.py: `IFCDate.fromordinal` (the constructor's validation is tracked
separately by `IFCDate.valid`; the source's `assert leapyear == is_leap_year(year)` is
proved as part of `greg_decomp`). -/
def IFCDate.fromordinal (n0 : Int) : IFCDate :=
  let n := n0 - 1
  let n400 := n / DI400Y
  let n := n % DI400Y
  let n100 := n / DI100Y
  let n := n % DI100Y
  let n4 := n / DI4Y
  let n := n % DI4Y
  let n1 := n / 365
  let n := n % 365
  let year := n400 * 400 + n100 * 100 + n4 * 4 + n1 + 1
  if n1 = 4 ∨ n100 = 4 then ⟨year - 1, 13, 29⟩
  else
    let leapyear := n1 == 3 && (n4 != 24 || n100 == 3)
    let dbm := days_before_month leapyear
    let month := bisect dbm n
    let day := n - dbm.getD (month - 1).toNat 0
    ⟨year, month, day + 1⟩

/-- From nerdcal/ifc.py: `IFCDate.weekday` (0..6 ordinary, 7 Year Day, 8 Leap Day). -/
def IFCDate.weekday (d : IFCDate) : Int :=
  if d.month = 13 ∧ d.day = 29 then 7
  else if d.month = 6 ∧ d.day = 29 then 8
  else if 7 ≤ d.month ∧ is_leap_year d.year = true then
    (d.toordinal - days_before_year d.year) % 7
  else (d.toordinal - days_before_year d.year - 1) % 7

/-- The strict order on IFCDates generated by `@dataclass(order=True)`:
lexicographic on the (year, month, day) field tuple. -/
def IFCDate.lex_lt (a b : IFCDate) : Prop :=
  a.year < b.year ∨
    (a.year = b.year ∧ (a.month < b.month ∨ (a.month = b.month ∧ a.day < b.day)))

/-- The `n1 == 4 or n100 == 4` branch condition of `fromordinal` (nerdcal/_base.py
line 81 and nerdcal/ifc.py line 105), as a function of the 1-based ordinal. -/
def leap_branch (n0 : Int) : Prop :=
  (n0 - 1) % DI400Y % DI100Y % DI4Y / 365 = 4 ∨ (n0 - 1) % DI400Y / DI100Y = 4

instance (n0 : Int) : Decidable (leap_branch n0) := by
  unfold leap_branch
  exact inferInstance

/-- Result of `__add__`: a date, an `OverflowError` (out-of-range ordinal check in
`__add__` itself), or a `ValueError` raised by the constructor inside `fromordinal`. -/
inductive AddResult (α : Type) : Type where
  | ok : α → AddResult α
  | overflow : AddResult α
  | invalid : AddResult α
deriving DecidableEq

/-- From nerdcal/ifc.py: `IFCDate.__add__` with a whole-day timedelta. -/
def IFCDate.add (d : IFCDate) (days : Int) : AddResult IFCDate :=
  let o := d.toordinal + days
  if 0 < o ∧ o ≤ 3652059 then
    let r := IFCDate.fromordinal o
    if r.valid then .ok r else .invalid
  else .overflow

/-- A pair (period, day) is lexicographically at most another (used to state the
monotonicity property of C3). -/
def period_day_le (p1 d1 p2 d2 : Int) : Prop :=
  p1 < p2 ∨ (p1 = p2 ∧ d1 ≤ d2)

instance (p1 d1 p2 d2 : Int) : Decidable (period_day_le p1 d1 p2 d2) := by
  unfold period_day_le
  exact inferInstance

/-- Structured date of the Seasonal calendar (nerdcal/seasonal.py, `SeasonalDate`). -/
structure SeasonalDate where
  year : Int
  season : Int
  day : Int
deriving DecidableEq

/-- Validation performed by `SeasonalDate.__post_init__` (`calendar.isleap` computes
the same predicate as `is_leap_year`). -/
def SeasonalDate.valid (d : SeasonalDate) : Prop :=
  1 ≤ d.year ∧ d.year ≤ 9999 ∧ 1 ≤ d.season ∧ d.season ≤ 5 ∧
  (if d.season = 1 ∧ is_leap_year d.year = true then 0 else 1) ≤ d.day ∧ d.day ≤ 73

instance (d : SeasonalDate) : Decidable d.valid := by
  unfold SeasonalDate.valid
  exact inferInstance

/-- From nerdcal/seasonal.py: `SeasonalDate._days_in_season(year)`. -/
def days_in_season (year : Int) : List Int :=
  (List.range' 1 5).map (fun s => if (s : Int) = 1 ∧ is_leap_year year = true then 73 + 1 else 73)

/-- From nerdcal/seasonal.py: `SeasonalDate._days_before_season(year)`, i.e.
`list(accumulate([0] + days_in_season(year)))[:-1]`. -/
def days_before_season (year : Int) : List Int :=
  ((days_in_season year).scanl (fun a b => a + b) 0).dropLast

/-- From nerdcal/seasonal.py: `SeasonalDate._from_year_and_ordinal(year, n)` with its
unconditional day-70 adjustment (note: the source does not test for a leap year here). -/
def SeasonalDate.from_year_and_ordinal (year n : Int) : SeasonalDate :=
  let dbs := days_before_season year
  let season := bisect dbs n
  let day := n - dbs.getD (season - 1).toNat 0
  let day2 :=
    if season = 1 then (if day = 70 then -1 else if 70 < day then day - 1 else day) else day
  ⟨year, season, day2 + 1⟩

/-- From nerdcal/_base.py: `Date.fromordinal` as inherited by SeasonalDate
(`cls._from_year_and_ordinal` resolves to `SeasonalDate._from_year_and_ordinal`;
the source's assert is proved in `greg_decomp`). -/
def SeasonalDate.fromordinal_base (n0 : Int) : SeasonalDate :=
  let n := n0 - 1
  let n400 := n / DI400Y
  let n := n % DI400Y
  let n100 := n / DI100Y
  let n := n % DI100Y
  let n4 := n / DI4Y
  let n := n % DI4Y
  let n1 := n / 365
  let n := n % 365
  let year := n400 * 400 + n100 * 100 + n4 * 4 + n1 + 1
  if n1 = 4 ∨ n100 = 4 then SeasonalDate.from_year_and_ordinal (year - 1) 365
  else SeasonalDate.from_year_and_ordinal year n

/-- From nerdcal/seasonal.py: `SeasonalDate.fromordinal` shifts the year start 11 days
earlier before delegating to the shared base-class decomposition. -/
def SeasonalDate.fromordinal (n : Int) : SeasonalDate :=
  SeasonalDate.fromordinal_base (n + 11)

/-- From nerdcal/seasonal.py: `SeasonalDate.toordinal` (the `day_offset` local
variable is inlined). -/
def SeasonalDate.toordinal (d : SeasonalDate) : Int :=
  days_before_year d.year + (days_before_season d.year).getD (d.season - 1).toNat 0 +
    (if is_leap_year d.year = true ∧ d.season = 1 then
      (if d.day = 0 then 71 else if 71 ≤ d.day then d.day + 1 else d.day)
    else d.day) - 11

/-- Python `value or default` for an optional int argument: both `None` and a passed 0
are falsy and fall back to the default.  Models the `year or self.year` pattern of
`replace` in the source. -/
def pyOr (x : Option Int) (dflt : Int) : Int :=
  match x with
  | none => dflt
  | some v => if v = 0 then dflt else v

/-- From nerdcal/seasonal.py: `SeasonalDate.replace` (the result is re-validated by
construction; `none` models the raised ValueError). -/
def SeasonalDate.replace (d : SeasonalDate) (year season day : Option Int) :
    Option SeasonalDate :=
  let r : SeasonalDate := ⟨pyOr year d.year, pyOr season d.season, pyOr day d.day⟩
  if r.valid then some r else none

/-- From nerdcal/_base.py: `Date.__add__` as inherited by SeasonalDate. -/
def SeasonalDate.add (d : SeasonalDate) (days : Int) : AddResult SeasonalDate :=
  let o := d.toordinal + days
  if 0 < o ∧ o ≤ 3652059 then
    let r := SeasonalDate.fromordinal o
    if r.valid then .ok r else .invalid
  else .overflow

/-- Closed form of the Seasonal days-before-season table (verification helper). -/
def season_start (leap : Bool) (s : Int) : Int :=
  73 * (s - 1) + (if leap = true ∧ 2 ≤ s then 1 else 0)

/-- Seasonal ordinals hitting day indices 70..72 of season 1 of a non-leap year, on
which `fromordinal` either raises (index 70 yields day 0) or is off by one
(verification helper describing the broken region). -/
def seasonal_broken (o : Int) : Prop :=
  ∃ y, 1 ≤ y ∧ y ≤ 9999 ∧ is_leap_year y = false ∧
    days_before_year y + 70 ≤ o + 10 ∧ o + 10 ≤ days_before_year y + 72

/-- Structured date of the Positivist calendar (nerdcal/positivist.py).  The class
subclasses IFCDate and overrides only names, `weekday` and `_ctime_date`; the
definitions below inline the inherited IFCDate implementations. -/
structure PositivistDate where
  year : Int
  month : Int
  day : Int
deriving DecidableEq

def PositivistDate.toIFC (d : PositivistDate) : IFCDate := ⟨d.year, d.month, d.day⟩

def PositivistDate.ofIFC (d : IFCDate) : PositivistDate := ⟨d.year, d.month, d.day⟩

/-- PositivistDate inherits `IFCDate.__post_init__`, which validates against the
module-level `_days_in_month` of ifc.py (the `PositivistDate._days_in_month`
classmethod is never called by any validation path). -/
def PositivistDate.valid (d : PositivistDate) : Prop := d.toIFC.valid

instance (d : PositivistDate) : Decidable d.valid := by
  unfold PositivistDate.valid
  exact inferInstance

/-- Inherited `IFCDate.toordinal` (ifc.py), using the IFC leap-shifted month table. -/
def PositivistDate.toordinal (d : PositivistDate) : Int := d.toIFC.toordinal

/-- Inherited `IFCDate.fromordinal` running with `cls = PositivistDate`. -/
def PositivistDate.fromordinal (n : Int) : PositivistDate :=
  .ofIFC (IFCDate.fromordinal n)

/-- From nerdcal/positivist.py: `PositivistDate.weekday` (7 = Festival of the Dead,
8 = Festival of Holy Women; ordinary days use `(day_of_year - 1) % 7` with
`day_of_year = toordinal() - days_before_year(year)`). -/
def PositivistDate.weekday (d : PositivistDate) : Int :=
  if d.month = 13 ∧ d.day = 29 then 7
  else if d.month = 13 ∧ d.day = 30 then 8
  else (d.toordinal - days_before_year d.year - 1) % 7

/-- The unused classmethod `PositivistDate._days_in_month(year)` of positivist.py:
month 13 has 29 days plus one more in leap years, every other month 28. -/
def positivist_days_in_month (year : Int) : List Int :=
  (List.range' 1 13).map
    (fun m =>
      if (m : Int) = 13 then 28 + 1 + (if is_leap_year year = true then 1 else 0) else 28)

/-- Inherited `IFCDate.__add__` with `cls = PositivistDate`. -/
def PositivistDate.add (d : PositivistDate) (days : Int) : AddResult PositivistDate :=
  let o := d.toordinal + days
  if 0 < o ∧ o ≤ 3652059 then
    let r := PositivistDate.fromordinal o
    if r.valid then .ok r else .invalid
  else .overflow

/-- The ASCII digit character for 0 ≤ n ≤ 9. -/
def digit_char (n : Int) : Char := Char.ofNat (48 + n.toNat)

/-- Model of Python `'{:04d}'.format(n)` for 0 ≤ n ≤ 9999 (the only values isoformat
feeds it): the four decimal digits, zero padded. -/
def pad4 (n : Int) : List Char :=
  [digit_char (n / 1000 % 10), digit_char (n / 100 % 10), digit_char (n / 10 % 10),
    digit_char (n % 10)]

/-- Model of Python `'{:02d}'.format(n)` for 0 ≤ n ≤ 99. -/
def pad2 (n : Int) : List Char :=
  [digit_char (n / 10 % 10), digit_char (n % 10)]

/-- The `YYYY-MM-DD` string (as a list of characters) with the given components. -/
def iso_chars (y m d : Int) : List Char :=
  pad4 y ++ ['-'] ++ pad2 m ++ ['-'] ++ pad2 d

/-- From nerdcal/ifc.py: `IFCDate.isoformat`, i.e.
`f'{self.year:04d}-{self.month:02d}-{self.day:02d}'`. -/
def IFCDate.isoformat (d : IFCDate) : List Char := iso_chars d.year d.month d.day

/-- Inherited `IFCDate.isoformat` for PositivistDate. -/
def PositivistDate.isoformat (d : PositivistDate) : List Char :=
  iso_chars d.year d.month d.day

/-- The numeric value of an ASCII digit character, `none` otherwise. -/
def digit_val (c : Char) : Option Int :=
  if 48 ≤ c.toNat ∧ c.toNat ≤ 57 then some ((c.toNat : Int) - 48) else none

def parse_digits (cs : List Char) (acc : Int) : Option Int :=
  match cs with
  | [] => some acc
  | c :: rest =>
    match digit_val c with
    | none => none
    | some v => parse_digits rest (acc * 10 + v)

/-- Model of Python `int(s)` restricted to all-digit strings — the only inputs the
round-trip claims feed it (sign/whitespace acceptance of `int` never arises on
isoformat output). -/
def parse_int (cs : List Char) : Option Int :=
  if cs.isEmpty then none else parse_digits cs 0

/-- From nerdcal/utils.py: `parse_isoformat_date` (the length assert and the
separator checks raise; every failure is `none`). -/
def parse_isoformat_date (cs : List Char) : Option (Int × Int × Int) :=
  if cs.length = 10 then
    match parse_int (cs.take 4) with
    | none => none
    | some y =>
      if cs.getD 4 ' ' = '-' then
        match parse_int ((cs.drop 5).take 2) with
        | none => none
        | some m =>
          if cs.getD 7 ' ' = '-' then
            match parse_int ((cs.drop 8).take 2) with
            | none => none
            | some d => some (y, m, d)
          else none
      else none
  else none

/-- From nerdcal/ifc.py: `IFCDate.fromisoformat` (parse failure or a constructor
ValueError is `none`). -/
def IFCDate.fromisoformat (cs : List Char) : Option IFCDate :=
  match parse_isoformat_date cs with
  | none => none
  | some (y, m, d) => if (IFCDate.mk y m d).valid then some ⟨y, m, d⟩ else none

/-- Inherited `IFCDate.fromisoformat` with `cls = PositivistDate`. -/
def PositivistDate.fromisoformat (cs : List Char) : Option PositivistDate :=
  match parse_isoformat_date cs with
  | none => none
  | some (y, m, d) =>
    if (PositivistDate.mk y m d).valid then some ⟨y, m, d⟩ else none

/-- Gregorian cumulative days-before-month table (non-leap / leap).  Models the host
`datetime.date` month layout, to which `_base.Date.isoformat` delegates. -/
def greg_days_before_month (leap : Bool) : List Int :=
  if leap then [0, 31, 60, 91, 121, 152, 182, 213, 244, 274, 305, 335]
  else [0, 31, 59, 90, 120, 151, 181, 212, 243, 273, 304, 334]

/-- Model of the host `datetime.date.fromordinal` (proleptic Gregorian (year, month,
day) of an ordinal), used by `_base.Date.todate`. -/
def greg_fromordinal (n0 : Int) : Int × Int × Int :=
  let n := n0 - 1
  let n400 := n / DI400Y
  let n := n % DI400Y
  let n100 := n / DI100Y
  let n := n % DI100Y
  let n4 := n / DI4Y
  let n := n % DI4Y
  let n1 := n / 365
  let n := n % 365
  let year := n400 * 400 + n100 * 100 + n4 * 4 + n1 + 1
  if n1 = 4 ∨ n100 = 4 then (year - 1, 12, 31)
  else
    let leapyear := n1 == 3 && (n4 != 24 || n100 == 3)
    let dbm := greg_days_before_month leapyear
    let month := bisect dbm n
    let day := n - dbm.getD (month - 1).toNat 0
    (year, month, day + 1)

/-- From nerdcal/_base.py: `Date.isoformat` returns `self.todate().isoformat()` — the
proleptic GREGORIAN date string of the same ordinal (not the calendar's own
numbering).  SeasonalDate does not override it. -/
def SeasonalDate.isoformat (d : SeasonalDate) : List Char :=
  let t := greg_fromordinal d.toordinal
  iso_chars t.1 t.2.1 t.2.2

section Theorems

theorem DI400Y_eq : DI400Y = 146097 := by decide

theorem DI100Y_eq : DI100Y = 36524 := by decide

theorem DI4Y_eq : DI4Y = 1461 := by decide

theorem is_leap_year_iff (y : Int) :
    is_leap_year y = true ↔ (y % 4 = 0 ∧ (y % 100 ≠ 0 ∨ y % 400 = 0)) := by
  simp [is_leap_year, Bool.and_eq_true, Bool.or_eq_true, beq_iff_eq, bne_iff_ne]

theorem days_before_year_succ (y : Int) :
    days_before_year (y + 1) =
      days_before_year y + 365 + (if is_leap_year y = true then 1 else 0) := by
  have h := is_leap_year_iff y
  simp only [days_before_year]
  split_ifs with hl
  · rw [h] at hl
    omega
  · rw [h] at hl
    push_neg at hl
    omega

theorem days_before_year_mono {a b : Int} (h : a ≤ b) :
    days_before_year a ≤ days_before_year b := by
  simp only [days_before_year]
  omega

/-- Main correctness of the shared 400/100/4/1-cycle decomposition used by every
`fromordinal` in the source (`_base.Date.fromordinal` and `ifc.IFCDate.fromordinal`):
for a 0-based ordinal `n`, either the `n1 == 4 or n100 == 4` correction branch fires
and `n` is the 366th day (0-based index 365) of the leap year `year - 1`, or the
candidate year is correct, `nf` is the 0-based day of that year, and the computed
`leapyear` boolean agrees with `is_leap_year`. -/
theorem greg_decomp (n n400 r400 n100 r100 n4 r4 n1 nf year : Int)
    (h0 : 0 ≤ n) (h1 : n ≤ 3652424)
    (e1 : n400 = n / 146097) (e2 : r400 = n % 146097)
    (e3 : n100 = r400 / 36524) (e4 : r100 = r400 % 36524)
    (e5 : n4 = r100 / 1461) (e6 : r4 = r100 % 1461)
    (e7 : n1 = r4 / 365) (e8 : nf = r4 % 365)
    (ey : year = n400 * 400 + n100 * 100 + n4 * 4 + n1 + 1) :
    ((n1 = 4 ∨ n100 = 4) →
      2 ≤ year ∧ year ≤ 10001 ∧ is_leap_year (year - 1) = true ∧
        n = days_before_year (year - 1) + 365)
    ∧ (¬(n1 = 4 ∨ n100 = 4) →
      1 ≤ year ∧ year ≤ 10000 ∧ 0 ≤ nf ∧ nf ≤ 364 ∧
        n = days_before_year year + nf ∧
        (is_leap_year year = true ↔ (n1 = 3 ∧ (n4 ≠ 24 ∨ n100 = 3)))) := by
  have key : n = 146097 * n400 + 36524 * n100 + 1461 * n4 + 365 * n1 + nf ∧
      0 ≤ n400 ∧ n400 ≤ 24 ∧ 0 ≤ n100 ∧ n100 ≤ 4 ∧ 0 ≤ n4 ∧ n4 ≤ 24 ∧
      0 ≤ n1 ∧ n1 ≤ 4 ∧ 0 ≤ nf ∧ nf ≤ 364 ∧
      (n100 = 4 → n4 = 0 ∧ n1 = 0 ∧ nf = 0) ∧
      (n1 = 4 → nf = 0 ∧ n4 ≠ 24) := by
    omega
  obtain ⟨hk, b1, b2, b3, b4, b5, b6, b7, b8, b9, b10, h100c, h14c⟩ := key
  clear e1 e2 e3 e4 e5 e6 e7 e8
  rw [is_leap_year_iff, is_leap_year_iff]
  simp only [days_before_year]
  constructor
  · rintro (h | h)
    · have hn24 : n4 ≤ 23 := by omega
      have hn1003 : n100 ≤ 3 := by omega
      have hq4 : (year - 1 - 1) / 4 = 100 * n400 + 25 * n100 + n4 := by omega
      have hq100 : (year - 1 - 1) / 100 = 4 * n400 + n100 := by omega
      have hq400 : (year - 1 - 1) / 400 = n400 := by omega
      omega
    · obtain ⟨hz4, hz1, hznf⟩ := h100c h
      have hq4 : (year - 1 - 1) / 4 = 100 * n400 + 99 := by omega
      have hq100 : (year - 1 - 1) / 100 = 4 * n400 + 3 := by omega
      have hq400 : (year - 1 - 1) / 400 = n400 := by omega
      omega
  · intro h
    have hn1 : n1 ≤ 3 := by omega
    have hn100 : n100 ≤ 3 := by omega
    have hq4 : (year - 1) / 4 = 100 * n400 + 25 * n100 + n4 := by omega
    have hq100 : (year - 1) / 100 = 4 * n400 + n100 := by omega
    have hq400 : (year - 1) / 400 = n400 := by omega
    omega

/-- The pairs (year, 0-based day-of-year) partition the timeline: a given day count
determines the year and day uniquely. -/
theorem year_day_unique (y1 k1 y2 k2 : Int)
    (hy1 : 1 ≤ y1) (hk1a : 0 ≤ k1)
    (hk1b : k1 ≤ 364 + (if is_leap_year y1 = true then 1 else 0))
    (hy2 : 1 ≤ y2) (hk2a : 0 ≤ k2)
    (hk2b : k2 ≤ 364 + (if is_leap_year y2 = true then 1 else 0))
    (he : days_before_year y1 + k1 = days_before_year y2 + k2) :
    y1 = y2 ∧ k1 = k2 := by
  rcases lt_trichotomy y1 y2 with h | h | h
  · have hs := days_before_year_succ y1
    have hm := days_before_year_mono (by omega : y1 + 1 ≤ y2)
    split_ifs at hk1b hs <;> omega
  · subst h
    omega
  · have hs := days_before_year_succ y2
    have hm := days_before_year_mono (by omega : y2 + 1 ≤ y1)
    split_ifs at hk2b hs <;> omega

theorem days_before_month_true :
    days_before_month true = [0, 28, 56, 84, 112, 140, 169, 197, 225, 253, 281, 309, 337] := by
  decide

theorem days_before_month_false :
    days_before_month false = [0, 28, 56, 84, 112, 140, 168, 196, 224, 252, 280, 308, 336] := by
  decide

theorem days_before_month_getD (leap : Bool) (m : Int) (h1 : 1 ≤ m) (h2 : m ≤ 13) :
    (days_before_month leap).getD (m - 1).toNat 0 = month_start leap m := by
  cases leap <;> interval_cases m <;> decide

set_option maxRecDepth 40000 in
theorem ifc_bisect_spec (leap : Bool) (v : Int) (h0 : 0 ≤ v)
    (h1 : v ≤ 364 + (if leap = true then 1 else 0)) :
    1 ≤ bisect (days_before_month leap) v ∧ bisect (days_before_month leap) v ≤ 13 ∧
    month_start leap (bisect (days_before_month leap) v) ≤ v ∧
    v < month_start leap (bisect (days_before_month leap) v) +
        month_len leap (bisect (days_before_month leap) v) := by
  cases leap
  · have key : ∀ w ∈ Finset.Icc (0 : Int) 364,
        1 ≤ bisect (days_before_month false) w ∧ bisect (days_before_month false) w ≤ 13 ∧
        month_start false (bisect (days_before_month false) w) ≤ w ∧
        w < month_start false (bisect (days_before_month false) w) +
            month_len false (bisect (days_before_month false) w) := by
      decide
    refine key v ?_
    rw [Finset.mem_Icc]
    simp only [Bool.false_eq_true, if_false] at h1
    omega
  · have key : ∀ w ∈ Finset.Icc (0 : Int) 365,
        1 ≤ bisect (days_before_month true) w ∧ bisect (days_before_month true) w ≤ 13 ∧
        month_start true (bisect (days_before_month true) w) ≤ w ∧
        w < month_start true (bisect (days_before_month true) w) +
            month_len true (bisect (days_before_month true) w) := by
      decide
    refine key v ?_
    rw [Finset.mem_Icc]
    simp only [if_true] at h1
    omega

theorem days_before_year_one : days_before_year 1 = 0 := by decide

theorem days_before_year_9999 : days_before_year 9999 = 3651694 := by decide

theorem days_before_year_10000 : days_before_year 10000 = 3652059 := by decide

theorem ifc_days_in_month_eq (y m : Int) :
    ifc_days_in_month y m = month_len (is_leap_year y) m := rfl

theorem month_unique (L : Bool) (m1 m2 v : Int) (h11 : 1 ≤ m1) (h12 : m1 ≤ 13)
    (h21 : 1 ≤ m2) (h22 : m2 ≤ 13)
    (ha : month_start L m1 ≤ v) (hb : v < month_start L m1 + month_len L m1)
    (hc : month_start L m2 ≤ v) (hd : v < month_start L m2 + month_len L m2) :
    m1 = m2 := by
  cases L <;>
    simp [month_start, month_len] at ha hb hc hd <;>
    split_ifs at ha hb hc hd <;> omega

theorem month_start_add_len_le (L : Bool) (m1 m2 : Int) (h11 : 1 ≤ m1) (h : m1 < m2)
    (h22 : m2 ≤ 13) : month_start L m1 + month_len L m1 ≤ month_start L m2 := by
  cases L <;> simp [month_start, month_len] <;> split_ifs <;> omega

theorem month_start_bounds (L : Bool) (m : Int) (h1 : 1 ≤ m) (h2 : m ≤ 13) :
    0 ≤ month_start L m ∧
    month_start L m + month_len L m ≤ 365 + (if L = true then 1 else 0) := by
  cases L <;> simp [month_start, month_len] <;> split_ifs <;> omega

/-- Characterization of `IFCDate.fromordinal` on the ordinal of day index `k`
(0-based) of year `y`: it lands in the month whose cumulative range contains `k`. -/
theorem ifc_fromordinal_spec (y k : Int) (hy1 : 1 ≤ y) (hy2 : y ≤ 10000) (hk0 : 0 ≤ k)
    (hk1 : k ≤ 364 + (if is_leap_year y = true then 1 else 0)) :
    ∃ m, 1 ≤ m ∧ m ≤ 13 ∧ month_start (is_leap_year y) m ≤ k ∧
      k < month_start (is_leap_year y) m + month_len (is_leap_year y) m ∧
      IFCDate.fromordinal (days_before_year y + k + 1) =
        ⟨y, m, k - month_start (is_leap_year y) m + 1⟩ := by
  set n := days_before_year y + k with hn
  have hn0 : 0 ≤ n := by
    have hd := days_before_year_mono (show (1 : Int) ≤ y from hy1)
    rw [days_before_year_one] at hd
    omega
  have hn1 : n ≤ 3652424 := by
    have hd := days_before_year_mono (show y ≤ 10000 from hy2)
    rw [days_before_year_10000] at hd
    split_ifs at hk1 <;> omega
  obtain ⟨hbr1, hbr2⟩ :=
    greg_decomp n (n / 146097) (n % 146097) (n % 146097 / 36524) (n % 146097 % 36524)
      (n % 146097 % 36524 / 1461) (n % 146097 % 36524 % 1461)
      (n % 146097 % 36524 % 1461 / 365) (n % 146097 % 36524 % 1461 % 365)
      (n / 146097 * 400 + n % 146097 / 36524 * 100 + n % 146097 % 36524 / 1461 * 4 +
        n % 146097 % 36524 % 1461 / 365 + 1)
      hn0 hn1 rfl rfl rfl rfl rfl rfl rfl rfl rfl
  simp only [IFCDate.fromordinal, DI400Y_eq, DI100Y_eq, DI4Y_eq]
  rw [show n + 1 - 1 = n from by omega]
  set A := n / 146097 with hA
  set B := n % 146097 with hB
  set C := B / 36524 with hC
  set D := B % 36524 with hD
  set E := D / 1461 with hE
  set F := D % 1461 with hF
  set G := F / 365 with hG2
  set H := F % 365 with hH
  by_cases hbr : (G = 4 ∨ C = 4)
  · obtain ⟨h2, h3, hleap, heq⟩ := hbr1 hbr
    obtain ⟨hyy, hkk⟩ :=
      year_day_unique y k (A * 400 + C * 100 + E * 4 + G + 1 - 1) 365 hy1 hk0 hk1
        (by omega) (by norm_num) (by rw [hleap]; norm_num) (by omega)
    have hlyt : is_leap_year y = true := by rw [hyy]; exact hleap
    refine ⟨13, by norm_num, by norm_num, ?_, ?_, ?_⟩
    · rw [hlyt]
      norm_num [month_start]
      omega
    · rw [hlyt]
      norm_num [month_start, month_len]
      omega
    · rw [if_pos hbr]
      rw [IFCDate.mk.injEq]
      refine ⟨by omega, by norm_num, ?_⟩
      rw [hlyt]
      norm_num [month_start]
      omega
  · obtain ⟨h1y, h10000, hnf0, hnf364, heq, hiff⟩ := hbr2 hbr
    obtain ⟨hyy, hkk⟩ :=
      year_day_unique y k (A * 400 + C * 100 + E * 4 + G + 1) H hy1 hk0 hk1
        (by omega) hnf0 (by split_ifs <;> omega) (by omega)
    have hiff2 : is_leap_year y = true ↔ (G = 3 ∧ (E ≠ 24 ∨ C = 3)) := by
      rw [hyy]
      exact hiff
    have hlb : (G == 3 && (E != 24 || C == 3)) = is_leap_year y := by
      rw [Bool.eq_iff_iff, hiff2]
      simp [Bool.and_eq_true, Bool.or_eq_true, beq_iff_eq, bne_iff_ne]
    obtain ⟨hm1, hm13, hms, hml⟩ :=
      ifc_bisect_spec (is_leap_year y) H hnf0 (by split_ifs <;> omega)
    refine ⟨bisect (days_before_month (is_leap_year y)) H, hm1, hm13, by omega, by omega, ?_⟩
    rw [if_neg hbr, hlb]
    rw [days_before_month_getD (is_leap_year y)
      (bisect (days_before_month (is_leap_year y)) H) hm1 hm13]
    rw [IFCDate.mk.injEq]
    exact ⟨by omega, rfl, by omega⟩

theorem ifc_toordinal_eq (d : IFCDate) (h1 : 1 ≤ d.month) (h2 : d.month ≤ 13) :
    d.toordinal =
      days_before_year d.year + month_start (is_leap_year d.year) d.month + d.day := by
  unfold IFCDate.toordinal
  rw [days_before_month_getD _ _ h1 h2]

theorem ifc_toordinal_mk (y m dd : Int) (h1 : 1 ≤ m) (h2 : m ≤ 13) :
    (IFCDate.mk y m dd).toordinal =
      days_before_year y + month_start (is_leap_year y) m + dd :=
  ifc_toordinal_eq ⟨y, m, dd⟩ h1 h2

/-- Every in-range ordinal decomposes as a (year, day-index, month) triple on which
`IFCDate.fromordinal` produces the corresponding structured date. -/
theorem ifc_ord_spec (o : Int) (h1 : 1 ≤ o) (h2 : o ≤ 3652059) :
    ∃ y k m, 1 ≤ y ∧ y ≤ 9999 ∧ 0 ≤ k ∧
      k ≤ 364 + (if is_leap_year y = true then 1 else 0) ∧
      o = days_before_year y + k + 1 ∧ 1 ≤ m ∧ m ≤ 13 ∧
      month_start (is_leap_year y) m ≤ k ∧
      k < month_start (is_leap_year y) m + month_len (is_leap_year y) m ∧
      IFCDate.fromordinal o = ⟨y, m, k - month_start (is_leap_year y) m + 1⟩ := by
  obtain ⟨hbr1, hbr2⟩ :=
    greg_decomp (o - 1) ((o - 1) / 146097) ((o - 1) % 146097) ((o - 1) % 146097 / 36524)
      ((o - 1) % 146097 % 36524) ((o - 1) % 146097 % 36524 / 1461)
      ((o - 1) % 146097 % 36524 % 1461) ((o - 1) % 146097 % 36524 % 1461 / 365)
      ((o - 1) % 146097 % 36524 % 1461 % 365)
      ((o - 1) / 146097 * 400 + (o - 1) % 146097 / 36524 * 100 +
        (o - 1) % 146097 % 36524 / 1461 * 4 + (o - 1) % 146097 % 36524 % 1461 / 365 + 1)
      (by omega) (by omega) rfl rfl rfl rfl rfl rfl rfl rfl rfl
  by_cases hbr : ((o - 1) % 146097 % 36524 % 1461 / 365 = 4 ∨ (o - 1) % 146097 / 36524 = 4)
  · obtain ⟨h2', h3', hleap, heq⟩ := hbr1 hbr
    obtain ⟨Y, hY1, hYleap, hYeq⟩ :
        ∃ Y, 1 ≤ Y ∧ is_leap_year Y = true ∧ o - 1 = days_before_year Y + 365 :=
      ⟨_, by omega, hleap, by omega⟩
    have hY9999 : Y ≤ 9999 := by
      by_contra hcY
      have hd := days_before_year_mono (show (9999 : Int) ≤ Y from by omega)
      rw [days_before_year_9999] at hd
      omega
    obtain ⟨m, hm1, hm2, hm3, hm4, hm5⟩ :=
      ifc_fromordinal_spec Y 365 hY1 (by omega) (by norm_num) (by rw [hYleap]; norm_num)
    rw [show days_before_year Y + 365 + 1 = o from by omega] at hm5
    exact ⟨Y, 365, m, hY1, hY9999, by norm_num, by rw [hYleap]; norm_num, by omega,
      hm1, hm2, hm3, hm4, hm5⟩
  · obtain ⟨h1y, h10000, hnf0, hnf364, heq, hiff⟩ := hbr2 hbr
    obtain ⟨Y, K, hY1, hK0, hK364, hYeq⟩ :
        ∃ Y K, 1 ≤ Y ∧ 0 ≤ K ∧ K ≤ 364 ∧ o - 1 = days_before_year Y + K :=
      ⟨_, _, h1y, hnf0, hnf364, heq⟩
    have hY9999 : Y ≤ 9999 := by
      by_contra hcY
      have hd := days_before_year_mono (show (10000 : Int) ≤ Y from by omega)
      rw [days_before_year_10000] at hd
      omega
    obtain ⟨m, hm1, hm2, hm3, hm4, hm5⟩ :=
      ifc_fromordinal_spec Y K hY1 (by omega) hK0 (by split_ifs <;> omega)
    rw [show days_before_year Y + K + 1 = o from by omega] at hm5
    exact ⟨Y, K, m, hY1, hY9999, hK0, by split_ifs <;> omega, by omega,
      hm1, hm2, hm3, hm4, hm5⟩

/-- Ordinal-to-date direction of the round trip for the IFC calendar: `fromordinal`
of an in-range ordinal is a valid date mapping back to the same ordinal. -/
theorem ifc_A (o : Int) (h1 : 1 ≤ o) (h2 : o ≤ 3652059) :
    (IFCDate.fromordinal o).valid ∧ (IFCDate.fromordinal o).toordinal = o := by
  obtain ⟨y, k, m, hy1, hy2, hk0, hk1, ho, hm1, hm2, hms, hml, heq⟩ := ifc_ord_spec o h1 h2
  rw [heq]
  constructor
  · refine ⟨hy1, hy2, hm1, hm2, ?_, ?_⟩
    · show 1 ≤ k - month_start (is_leap_year y) m + 1
      omega
    · show k - month_start (is_leap_year y) m + 1 ≤ ifc_days_in_month y m
      rw [ifc_days_in_month_eq]
      omega
  · rw [ifc_toordinal_mk y m (k - month_start (is_leap_year y) m + 1) hm1 hm2]
    omega

/-- Date-to-ordinal direction of the round trip for the IFC calendar. -/
theorem ifc_B (d : IFCDate) (h : d.valid) : IFCDate.fromordinal d.toordinal = d := by
  obtain ⟨h1, h2, h3, h4, h5, h6⟩ := h
  rw [ifc_days_in_month_eq] at h6
  have hmsb := month_start_bounds (is_leap_year d.year) d.month h3 h4
  obtain ⟨m2, hm1, hm2, hms, hml, heq⟩ :=
    ifc_fromordinal_spec d.year (month_start (is_leap_year d.year) d.month + d.day - 1)
      h1 (by omega) (by omega) (by split_ifs at hmsb ⊢ <;> omega)
  rw [ifc_toordinal_eq d h3 h4]
  rw [show days_before_year d.year + month_start (is_leap_year d.year) d.month + d.day
      = days_before_year d.year +
          (month_start (is_leap_year d.year) d.month + d.day - 1) + 1 from by omega]
  rw [heq]
  have hmm : m2 = d.month :=
    month_unique (is_leap_year d.year) m2 d.month
      (month_start (is_leap_year d.year) d.month + d.day - 1)
      hm1 hm2 h3 h4 hms hml (by omega) (by omega)
  subst hmm
  rw [IFCDate.mk.injEq]
  exact ⟨rfl, rfl, by omega⟩

/-- The ordinal of a valid IFC date is in 1..3652059. -/
theorem ifc_toordinal_range (d : IFCDate) (h : d.valid) :
    1 ≤ d.toordinal ∧ d.toordinal ≤ 3652059 := by
  obtain ⟨a1, a2, a3, a4, a5, a6⟩ := h
  rw [ifc_days_in_month_eq] at a6
  rw [ifc_toordinal_eq d a3 a4]
  have hb := month_start_bounds (is_leap_year d.year) d.month a3 a4
  have h0 := days_before_year_mono (show (1 : Int) ≤ d.year from a1)
  rw [days_before_year_one] at h0
  have hstep := days_before_year_succ d.year
  have h10 := days_before_year_mono (show d.year + 1 ≤ 10000 from by omega)
  rw [days_before_year_10000] at h10
  split_ifs at hb hstep <;> omega

/-- Lexicographic order on valid IFC dates implies strict ordinal order. -/
theorem ifc_toordinal_lt (d1 d2 : IFCDate) (v1 : d1.valid) (v2 : d2.valid)
    (hlt : d1.lex_lt d2) : d1.toordinal < d2.toordinal := by
  obtain ⟨a1, a2, a3, a4, a5, a6⟩ := v1
  obtain ⟨b1, b2, b3, b4, b5, b6⟩ := v2
  rw [ifc_days_in_month_eq] at a6 b6
  rw [ifc_toordinal_eq d1 a3 a4, ifc_toordinal_eq d2 b3 b4]
  rcases hlt with hy | ⟨hy, hm | ⟨hm, hd⟩⟩
  · have hstep := days_before_year_succ d1.year
    have hmono := days_before_year_mono (show d1.year + 1 ≤ d2.year from by omega)
    have hb1 := month_start_bounds (is_leap_year d1.year) d1.month a3 a4
    have hb2 := month_start_bounds (is_leap_year d2.year) d2.month b3 b4
    split_ifs at hstep hb1 hb2 <;> omega
  · have hle := month_start_add_len_le (is_leap_year d1.year) d1.month d2.month a3 hm b4
    rw [hy] at hle a6 ⊢
    omega
  · rw [hy, hm]
    omega

/-- Valid IFC dates with equal ordinals are equal. -/
theorem ifc_toordinal_inj (d1 d2 : IFCDate) (v1 : d1.valid) (v2 : d2.valid)
    (h : d1.toordinal = d2.toordinal) : d1 = d2 := by
  have htri : d1.lex_lt d2 ∨ d1 = d2 ∨ d2.lex_lt d1 := by
    unfold IFCDate.lex_lt
    rcases d1 with ⟨y1, m1, dd1⟩
    rcases d2 with ⟨y2, m2, dd2⟩
    simp only [IFCDate.mk.injEq]
    omega
  rcases htri with h' | h' | h'
  · have := ifc_toordinal_lt d1 d2 v1 v2 h'
    omega
  · exact h'
  · have := ifc_toordinal_lt d2 d1 v2 v1 h'
    omega

theorem days_before_season_of_leap (y : Int) (h : is_leap_year y = true) :
    days_before_season y = [0, 74, 147, 220, 293] := by
  simp only [days_before_season, days_in_season, h]
  decide

theorem days_before_season_of_nonleap (y : Int) (h : is_leap_year y = false) :
    days_before_season y = [0, 73, 146, 219, 292] := by
  simp only [days_before_season, days_in_season, h]
  decide

theorem getD_dbs_nonleap (s : Int) (h1 : 1 ≤ s) (h2 : s ≤ 5) :
    ([0, 73, 146, 219, 292] : List Int).getD (s - 1).toNat 0 = season_start false s := by
  interval_cases s <;> decide

theorem getD_dbs_leap (s : Int) (h1 : 1 ≤ s) (h2 : s ≤ 5) :
    ([0, 74, 147, 220, 293] : List Int).getD (s - 1).toNat 0 = season_start true s := by
  interval_cases s <;> decide

theorem days_before_season_getD (y s : Int) (h1 : 1 ≤ s) (h2 : s ≤ 5) :
    (days_before_season y).getD (s - 1).toNat 0 = season_start (is_leap_year y) s := by
  cases hb : is_leap_year y
  · rw [days_before_season_of_nonleap y hb]
    exact getD_dbs_nonleap s h1 h2
  · rw [days_before_season_of_leap y hb]
    exact getD_dbs_leap s h1 h2

set_option maxRecDepth 40000 in
theorem seasonal_bisect_nonleap (v : Int) (h0 : 0 ≤ v) (h1 : v ≤ 364) :
    1 ≤ bisect [0, 73, 146, 219, 292] v ∧ bisect [0, 73, 146, 219, 292] v ≤ 5 ∧
    season_start false (bisect [0, 73, 146, 219, 292] v) ≤ v ∧
    v < season_start false (bisect [0, 73, 146, 219, 292] v) + 73 := by
  have key : ∀ w ∈ Finset.Icc (0 : Int) 364,
      1 ≤ bisect [0, 73, 146, 219, 292] w ∧ bisect [0, 73, 146, 219, 292] w ≤ 5 ∧
      season_start false (bisect [0, 73, 146, 219, 292] w) ≤ w ∧
      w < season_start false (bisect [0, 73, 146, 219, 292] w) + 73 := by
    decide
  refine key v ?_
  rw [Finset.mem_Icc]
  omega

set_option maxRecDepth 40000 in
theorem seasonal_bisect_leap (v : Int) (h0 : 0 ≤ v) (h1 : v ≤ 365) :
    1 ≤ bisect [0, 74, 147, 220, 293] v ∧ bisect [0, 74, 147, 220, 293] v ≤ 5 ∧
    season_start true (bisect [0, 74, 147, 220, 293] v) ≤ v ∧
    v < season_start true (bisect [0, 74, 147, 220, 293] v) + 73 +
        (if bisect [0, 74, 147, 220, 293] v = 1 then 1 else 0) := by
  have key : ∀ w ∈ Finset.Icc (0 : Int) 365,
      1 ≤ bisect [0, 74, 147, 220, 293] w ∧ bisect [0, 74, 147, 220, 293] w ≤ 5 ∧
      season_start true (bisect [0, 74, 147, 220, 293] w) ≤ w ∧
      w < season_start true (bisect [0, 74, 147, 220, 293] w) + 73 +
          (if bisect [0, 74, 147, 220, 293] w = 1 then 1 else 0) := by
    decide
  refine key v ?_
  rw [Finset.mem_Icc]
  omega

theorem season_unique2 (L : Bool) (s1 s2 v : Int) (h11 : 2 ≤ s1) (h12 : s1 ≤ 5)
    (h21 : 2 ≤ s2) (h22 : s2 ≤ 5)
    (ha : season_start L s1 ≤ v) (hb : v < season_start L s1 + 73)
    (hc : season_start L s2 ≤ v) (hd : v < season_start L s2 + 73) : s1 = s2 := by
  cases L
  · simp [season_start] at ha hb hc hd
    omega
  · simp [season_start] at ha hb hc hd
    split_ifs at ha hb hc hd <;> omega

theorem season_start_bounds (L : Bool) (s : Int) (h1 : 1 ≤ s) (h2 : s ≤ 5) :
    0 ≤ season_start L s ∧ season_start L s + 73 ≤ 365 + (if L = true then 1 else 0) ∧
    (2 ≤ s → 73 + (if L = true then 1 else 0) ≤ season_start L s) := by
  cases L
  · simp [season_start]
    omega
  · simp [season_start]
    split_ifs <;> omega

/-- Characterization of `SeasonalDate._from_year_and_ordinal` by region of the
0-based day index `k`: note the day-70 adjustment applies in every year, leap or not,
so index 70 of season 1 always produces day 0. -/
theorem seasonal_fyo_spec (y k : Int) (hk0 : 0 ≤ k)
    (hk1 : k ≤ 364 + (if is_leap_year y = true then 1 else 0)) :
    (k ≤ 69 → SeasonalDate.from_year_and_ordinal y k = ⟨y, 1, k + 1⟩) ∧
    (k = 70 → SeasonalDate.from_year_and_ordinal y k = ⟨y, 1, 0⟩) ∧
    (71 ≤ k → k ≤ 72 + (if is_leap_year y = true then 1 else 0) →
      SeasonalDate.from_year_and_ordinal y k = ⟨y, 1, k⟩) ∧
    (73 + (if is_leap_year y = true then 1 else 0) ≤ k →
      ∃ s, 2 ≤ s ∧ s ≤ 5 ∧ season_start (is_leap_year y) s ≤ k ∧
        k < season_start (is_leap_year y) s + 73 ∧
        SeasonalDate.from_year_and_ordinal y k =
          ⟨y, s, k - season_start (is_leap_year y) s + 1⟩) := by
  unfold SeasonalDate.from_year_and_ordinal
  cases hb : is_leap_year y
  · rw [days_before_season_of_nonleap y hb]
    rw [hb] at hk1
    simp only [Bool.false_eq_true, if_false] at hk1 ⊢
    refine ⟨?_, ?_, ?_, ?_⟩
    · intro hr
      have hbv : bisect [0, 73, 146, 219, 292] k = 1 := by
        simp only [bisect]
        rw [if_pos (show (0 : Int) ≤ k by omega), if_neg (show ¬ (73 : Int) ≤ k by omega)]
        norm_num
      rw [hbv]
      have hg : ([0, 73, 146, 219, 292] : List Int).getD ((1 : Int) - 1).toNat 0 = 0 := by
        decide
      rw [hg, if_pos rfl, if_neg (by omega : ¬ k - 0 = 70), if_neg (by omega : ¬ 70 < k - 0)]
      rw [SeasonalDate.mk.injEq]
      exact ⟨rfl, rfl, by omega⟩
    · intro hr
      have hbv : bisect [0, 73, 146, 219, 292] k = 1 := by
        simp only [bisect]
        rw [if_pos (show (0 : Int) ≤ k by omega), if_neg (show ¬ (73 : Int) ≤ k by omega)]
        norm_num
      rw [hbv]
      have hg : ([0, 73, 146, 219, 292] : List Int).getD ((1 : Int) - 1).toNat 0 = 0 := by
        decide
      rw [hg, if_pos rfl, if_pos (by omega : k - 0 = 70)]
      rw [show (-1 : Int) + 1 = 0 from by norm_num]
    · intro hr1 hr2
      have hbv : bisect [0, 73, 146, 219, 292] k = 1 := by
        simp only [bisect]
        rw [if_pos (show (0 : Int) ≤ k by omega), if_neg (show ¬ (73 : Int) ≤ k by omega)]
        norm_num
      rw [hbv]
      have hg : ([0, 73, 146, 219, 292] : List Int).getD ((1 : Int) - 1).toNat 0 = 0 := by
        decide
      rw [hg, if_pos rfl, if_neg (by omega : ¬ k - 0 = 70), if_pos (by omega : 70 < k - 0)]
      rw [SeasonalDate.mk.injEq]
      exact ⟨rfl, rfl, by omega⟩
    · intro hr
      obtain ⟨hs1, hs5, hss, hsl⟩ := seasonal_bisect_nonleap k hk0 (by omega)
      have hs2 : 2 ≤ bisect [0, 73, 146, 219, 292] k := by
        rcases (by omega : bisect [0, 73, 146, 219, 292] k = 1 ∨
            2 ≤ bisect [0, 73, 146, 219, 292] k) with h1' | h1'
        · rw [h1'] at hsl
          simp [season_start] at hsl
          omega
        · exact h1'
      refine ⟨bisect [0, 73, 146, 219, 292] k, hs2, hs5, hss, hsl, ?_⟩
      rw [getD_dbs_nonleap (bisect [0, 73, 146, 219, 292] k) (by omega) hs5]
      rw [if_neg (by omega : ¬ bisect [0, 73, 146, 219, 292] k = 1)]
  · rw [days_before_season_of_leap y hb]
    rw [hb] at hk1
    simp only [if_true] at hk1 ⊢
    refine ⟨?_, ?_, ?_, ?_⟩
    · intro hr
      have hbv : bisect [0, 74, 147, 220, 293] k = 1 := by
        simp only [bisect]
        rw [if_pos (show (0 : Int) ≤ k by omega), if_neg (show ¬ (74 : Int) ≤ k by omega)]
        norm_num
      rw [hbv]
      have hg : ([0, 74, 147, 220, 293] : List Int).getD ((1 : Int) - 1).toNat 0 = 0 := by
        decide
      rw [hg, if_pos rfl, if_neg (by omega : ¬ k - 0 = 70), if_neg (by omega : ¬ 70 < k - 0)]
      rw [SeasonalDate.mk.injEq]
      exact ⟨rfl, rfl, by omega⟩
    · intro hr
      have hbv : bisect [0, 74, 147, 220, 293] k = 1 := by
        simp only [bisect]
        rw [if_pos (show (0 : Int) ≤ k by omega), if_neg (show ¬ (74 : Int) ≤ k by omega)]
        norm_num
      rw [hbv]
      have hg : ([0, 74, 147, 220, 293] : List Int).getD ((1 : Int) - 1).toNat 0 = 0 := by
        decide
      rw [hg, if_pos rfl, if_pos (by omega : k - 0 = 70)]
      rw [show (-1 : Int) + 1 = 0 from by norm_num]
    · intro hr1 hr2
      have hbv : bisect [0, 74, 147, 220, 293] k = 1 := by
        simp only [bisect]
        rw [if_pos (show (0 : Int) ≤ k by omega), if_neg (show ¬ (74 : Int) ≤ k by omega)]
        norm_num
      rw [hbv]
      have hg : ([0, 74, 147, 220, 293] : List Int).getD ((1 : Int) - 1).toNat 0 = 0 := by
        decide
      rw [hg, if_pos rfl, if_neg (by omega : ¬ k - 0 = 70), if_pos (by omega : 70 < k - 0)]
      rw [SeasonalDate.mk.injEq]
      exact ⟨rfl, rfl, by omega⟩
    · intro hr
      obtain ⟨hs1, hs5, hss, hsl⟩ := seasonal_bisect_leap k hk0 (by omega)
      have hs2 : 2 ≤ bisect [0, 74, 147, 220, 293] k := by
        rcases (by omega : bisect [0, 74, 147, 220, 293] k = 1 ∨
            2 ≤ bisect [0, 74, 147, 220, 293] k) with h1' | h1'
        · rw [h1'] at hsl
          simp [season_start] at hsl
          omega
        · exact h1'
      rw [if_neg (by omega : ¬ bisect [0, 74, 147, 220, 293] k = 1)] at hsl
      refine ⟨bisect [0, 74, 147, 220, 293] k, hs2, hs5, hss, by omega, ?_⟩
      rw [getD_dbs_leap (bisect [0, 74, 147, 220, 293] k) (by omega) hs5]
      rw [if_neg (by omega : ¬ bisect [0, 74, 147, 220, 293] k = 1)]

/-- The shared base-class decomposition feeds `_from_year_and_ordinal` exactly the
(year, 0-based day index) pair of its argument. -/
theorem seasonal_base_spec (y k : Int) (hy1 : 1 ≤ y) (hy2 : y ≤ 10000) (hk0 : 0 ≤ k)
    (hk1 : k ≤ 364 + (if is_leap_year y = true then 1 else 0)) :
    SeasonalDate.fromordinal_base (days_before_year y + k + 1) =
      SeasonalDate.from_year_and_ordinal y k := by
  set n := days_before_year y + k with hn
  have hn0 : 0 ≤ n := by
    have hd := days_before_year_mono (show (1 : Int) ≤ y from hy1)
    rw [days_before_year_one] at hd
    omega
  have hn1 : n ≤ 3652424 := by
    have hd := days_before_year_mono (show y ≤ 10000 from hy2)
    rw [days_before_year_10000] at hd
    split_ifs at hk1 <;> omega
  obtain ⟨hbr1, hbr2⟩ :=
    greg_decomp n (n / 146097) (n % 146097) (n % 146097 / 36524) (n % 146097 % 36524)
      (n % 146097 % 36524 / 1461) (n % 146097 % 36524 % 1461)
      (n % 146097 % 36524 % 1461 / 365) (n % 146097 % 36524 % 1461 % 365)
      (n / 146097 * 400 + n % 146097 / 36524 * 100 + n % 146097 % 36524 / 1461 * 4 +
        n % 146097 % 36524 % 1461 / 365 + 1)
      hn0 hn1 rfl rfl rfl rfl rfl rfl rfl rfl rfl
  simp only [SeasonalDate.fromordinal_base, DI400Y_eq, DI100Y_eq, DI4Y_eq]
  rw [show n + 1 - 1 = n from by omega]
  set A := n / 146097 with hA
  set B := n % 146097 with hB
  set C := B / 36524 with hC
  set D := B % 36524 with hD
  set E := D / 1461 with hE
  set F := D % 1461 with hF
  set G := F / 365 with hG2
  set H := F % 365 with hH
  by_cases hbr : (G = 4 ∨ C = 4)
  · obtain ⟨h2, h3, hleap, heq⟩ := hbr1 hbr
    obtain ⟨hyy, hkk⟩ :=
      year_day_unique y k (A * 400 + C * 100 + E * 4 + G + 1 - 1) 365 hy1 hk0 hk1
        (by omega) (by norm_num) (by rw [hleap]; norm_num) (by omega)
    rw [if_pos hbr, ← hyy, ← hkk]
  · obtain ⟨h1y, h10000, hnf0, hnf364, heq, hiff⟩ := hbr2 hbr
    obtain ⟨hyy, hkk⟩ :=
      year_day_unique y k (A * 400 + C * 100 + E * 4 + G + 1) H hy1 hk0 hk1
        (by omega) hnf0 (by split_ifs <;> omega) (by omega)
    rw [if_neg hbr, ← hyy, ← hkk]

theorem seasonal_fromordinal_spec (o y k : Int) (hy1 : 1 ≤ y) (hy2 : y ≤ 10000)
    (hk0 : 0 ≤ k) (hk1 : k ≤ 364 + (if is_leap_year y = true then 1 else 0))
    (ho : o + 10 = days_before_year y + k) :
    SeasonalDate.fromordinal o = SeasonalDate.from_year_and_ordinal y k := by
  unfold SeasonalDate.fromordinal
  rw [show o + 11 = days_before_year y + k + 1 from by omega]
  exact seasonal_base_spec y k hy1 hy2 hk0 hk1

theorem season_start_one (L : Bool) : season_start L 1 = 0 := by
  cases L <;> decide

theorem seasonal_toordinal_mk (y s dd : Int) (h1 : 1 ≤ s) (h2 : s ≤ 5) :
    (SeasonalDate.mk y s dd).toordinal =
      days_before_year y + season_start (is_leap_year y) s +
        (if is_leap_year y = true ∧ s = 1 then
          (if dd = 0 then 71 else if 71 ≤ dd then dd + 1 else dd) else dd) - 11 := by
  unfold SeasonalDate.toordinal
  dsimp only
  rw [days_before_season_getD y s h1 h2]

/-- Ordinal-to-date round trip for the Seasonal calendar, on the region where the
code is not broken: ordinals up to 3652048 avoiding the non-leap day-70..72 slots. -/
theorem seasonal_A (o : Int) (h1 : 1 ≤ o) (h2 : o ≤ 3652048) (hbk : ¬ seasonal_broken o) :
    (SeasonalDate.fromordinal o).valid ∧ (SeasonalDate.fromordinal o).toordinal = o := by
  obtain ⟨y, k, m, hy1, hy9, hk0, hk1, ho', -, -, -, -, -⟩ :=
    ifc_ord_spec (o + 11) (by omega) (by omega)
  have ho : o + 10 = days_before_year y + k := by omega
  have heq := seasonal_fromordinal_spec o y k hy1 (by omega) hk0 hk1 ho
  obtain ⟨hr1, hr2, hr3, hr4⟩ := seasonal_fyo_spec y k hk0 hk1
  cases hb : is_leap_year y
  · rw [hb] at hk1
    norm_num at hk1
    have hknot : ¬ (70 ≤ k ∧ k ≤ 72) := by
      rintro ⟨ha, hbq⟩
      exact hbk ⟨y, hy1, hy9, hb, by omega, by omega⟩
    rcases (by omega : k ≤ 69 ∨ (70 ≤ k ∧ k ≤ 72) ∨ 73 ≤ k) with hk' | hk' | hk'
    · rw [heq, hr1 hk']
      constructor
      · refine ⟨hy1, hy9, by norm_num, by norm_num, ?_, ?_⟩
        · show (if (1 : Int) = 1 ∧ is_leap_year y = true then 0 else 1) ≤ k + 1
          rw [if_neg (by rw [hb]; simp)]
          omega
        · show k + 1 ≤ 73
          omega
      · rw [seasonal_toordinal_mk y 1 (k + 1) (by norm_num) (by norm_num)]
        rw [if_neg (by rw [hb]; simp), season_start_one]
        omega
    · exact absurd hk' hknot
    · obtain ⟨s, hs2, hs5, hss, hsl, heqs⟩ := hr4 (by rw [hb]; norm_num; omega)
      rw [heq, heqs]
      constructor
      · refine ⟨hy1, hy9, ?_, ?_, ?_, ?_⟩
        · show (1 : Int) ≤ s
          omega
        · show s ≤ 5
          omega
        · show (if s = 1 ∧ is_leap_year y = true then 0 else 1) ≤
            k - season_start (is_leap_year y) s + 1
          rw [if_neg (by rintro ⟨hs1', -⟩; omega)]
          omega
        · show k - season_start (is_leap_year y) s + 1 ≤ 73
          omega
      · rw [seasonal_toordinal_mk y s (k - season_start (is_leap_year y) s + 1)
          (by omega) hs5]
        rw [if_neg (by rintro ⟨-, hs1'⟩; omega)]
        omega
  · rw [hb] at hk1
    norm_num at hk1
    rcases (by omega : k ≤ 69 ∨ k = 70 ∨ (71 ≤ k ∧ k ≤ 73) ∨ 74 ≤ k)
      with hk' | hk' | hk' | hk'
    · rw [heq, hr1 hk']
      constructor
      · refine ⟨hy1, hy9, by norm_num, by norm_num, ?_, ?_⟩
        · show (if (1 : Int) = 1 ∧ is_leap_year y = true then 0 else 1) ≤ k + 1
          rw [if_pos ⟨rfl, hb⟩]
          omega
        · show k + 1 ≤ 73
          omega
      · rw [seasonal_toordinal_mk y 1 (k + 1) (by norm_num) (by norm_num)]
        rw [if_pos ⟨hb, rfl⟩, season_start_one]
        rw [if_neg (by omega : ¬ k + 1 = 0), if_neg (by omega : ¬ 71 ≤ k + 1)]
        omega
    · rw [heq, hr2 hk']
      constructor
      · refine ⟨hy1, hy9, by norm_num, by norm_num, ?_, ?_⟩
        · show (if (1 : Int) = 1 ∧ is_leap_year y = true then 0 else 1) ≤ 0
          rw [if_pos ⟨rfl, hb⟩]
        · show (0 : Int) ≤ 73
          norm_num
      · rw [seasonal_toordinal_mk y 1 0 (by norm_num) (by norm_num)]
        rw [if_pos ⟨hb, rfl⟩, season_start_one]
        rw [if_pos rfl]
        omega
    · rw [heq, hr3 (by omega) (by rw [hb]; norm_num; omega)]
      constructor
      · refine ⟨hy1, hy9, by norm_num, by norm_num, ?_, ?_⟩
        · show (if (1 : Int) = 1 ∧ is_leap_year y = true then 0 else 1) ≤ k
          rw [if_pos ⟨rfl, hb⟩]
          omega
        · show k ≤ 73
          omega
      · rw [seasonal_toordinal_mk y 1 k (by norm_num) (by norm_num)]
        rw [if_pos ⟨hb, rfl⟩, season_start_one]
        rw [if_neg (by omega : ¬ k = 0), if_pos (by omega : 71 ≤ k)]
        omega
    · obtain ⟨s, hs2, hs5, hss, hsl, heqs⟩ := hr4 (by rw [hb]; norm_num; omega)
      rw [heq, heqs]
      constructor
      · refine ⟨hy1, hy9, ?_, ?_, ?_, ?_⟩
        · show (1 : Int) ≤ s
          omega
        · show s ≤ 5
          omega
        · show (if s = 1 ∧ is_leap_year y = true then 0 else 1) ≤
            k - season_start (is_leap_year y) s + 1
          rw [if_neg (by rintro ⟨hs1', -⟩; omega)]
          omega
        · show k - season_start (is_leap_year y) s + 1 ≤ 73
          omega
      · rw [seasonal_toordinal_mk y s (k - season_start (is_leap_year y) s + 1)
          (by omega) hs5]
        rw [if_neg (by rintro ⟨-, hs1'⟩; omega)]
        omega

theorem ite_leap_false {y : Int} (hb : is_leap_year y = false) :
    (if is_leap_year y = true then (1 : Int) else 0) = 0 := by
  rw [hb]
  simp

theorem ite_leap_true {y : Int} (hb : is_leap_year y = true) :
    (if is_leap_year y = true then (1 : Int) else 0) = 1 := by
  rw [hb]
  simp

theorem season_start_bounds_false (s : Int) (h1 : 1 ≤ s) (h2 : s ≤ 5) :
    0 ≤ season_start false s ∧ season_start false s + 73 ≤ 365 ∧
    (2 ≤ s → 73 ≤ season_start false s) := by
  simp [season_start]
  omega

theorem season_start_bounds_true (s : Int) (h1 : 1 ≤ s) (h2 : s ≤ 5) :
    0 ≤ season_start true s ∧ season_start true s + 73 ≤ 366 ∧
    (2 ≤ s → 74 ≤ season_start true s) := by
  simp [season_start]
  split_ifs <;> omega

/-- Date-to-ordinal round trip for the Seasonal calendar: holds for every valid date
except season-1 days 71..73 of non-leap years (where the source is broken). -/
theorem seasonal_B (d : SeasonalDate) (h : d.valid)
    (hx : ¬ (is_leap_year d.year = false ∧ d.season = 1 ∧ 71 ≤ d.day)) :
    SeasonalDate.fromordinal d.toordinal = d := by
  obtain ⟨y, s, dd⟩ := d
  obtain ⟨h1, h2, h3, h4, h5, h6⟩ := h
  dsimp only at h1 h2 h3 h4 h5 h6 hx
  rw [seasonal_toordinal_mk y s dd h3 h4]
  cases hb : is_leap_year y
  · rw [hb] at hx h5
    rw [if_neg (by simp)]
    rw [if_neg (by simp)] at h5
    rcases (by omega : s = 1 ∨ 2 ≤ s) with hs1 | hs2
    · subst hs1
      have hdd70 : dd ≤ 70 := by
        by_contra hc
        exact hx ⟨rfl, rfl, by omega⟩
      rw [season_start_one]
      have hsp := seasonal_fromordinal_spec (days_before_year y + 0 + dd - 11) y (dd - 1)
        h1 (by omega) (by omega) (by rw [ite_leap_false hb]; omega) (by omega)
      rw [hsp]
      obtain ⟨hr1, -, -, -⟩ :=
        seasonal_fyo_spec y (dd - 1) (by omega) (by rw [ite_leap_false hb]; omega)
      rw [hr1 (by omega)]
      rw [SeasonalDate.mk.injEq]
      exact ⟨rfl, rfl, by omega⟩
    · obtain ⟨hba, hbb, hbc⟩ := season_start_bounds_false s h3 h4
      have hbc2 := hbc hs2
      have hsp := seasonal_fromordinal_spec (days_before_year y + season_start false s + dd - 11)
        y (season_start false s + dd - 1)
        h1 (by omega) (by omega) (by rw [ite_leap_false hb]; omega) (by omega)
      rw [hsp]
      obtain ⟨-, -, -, hr4⟩ :=
        seasonal_fyo_spec y (season_start false s + dd - 1) (by omega)
          (by rw [ite_leap_false hb]; omega)
      obtain ⟨s2, hs2a, hs2b, hs2c, hs2d, hs2e⟩ :=
        hr4 (by rw [ite_leap_false hb]; omega)
      rw [hb] at hs2c hs2d hs2e
      rw [hs2e]
      have hsu : s2 = s :=
        season_unique2 false s2 s (season_start false s + dd - 1) hs2a hs2b hs2 h4
          hs2c hs2d (by omega) (by omega)
      subst hsu
      rw [SeasonalDate.mk.injEq]
      exact ⟨rfl, rfl, by omega⟩
  · rw [hb] at h5
    rcases (by omega : s = 1 ∨ 2 ≤ s) with hs1 | hs2
    · subst hs1
      rw [if_pos ⟨rfl, rfl⟩, season_start_one]
      rw [if_pos ⟨rfl, rfl⟩] at h5
      rcases (by omega : dd = 0 ∨ (1 ≤ dd ∧ dd ≤ 70) ∨ 71 ≤ dd) with hc | hc | hc
      · rw [if_pos hc]
        have hsp := seasonal_fromordinal_spec (days_before_year y + 0 + 71 - 11) y 70
          h1 (by omega) (by omega) (by rw [ite_leap_true hb]; omega) (by omega)
        rw [hsp]
        obtain ⟨-, hr2, -, -⟩ :=
          seasonal_fyo_spec y 70 (by omega) (by rw [ite_leap_true hb]; omega)
        rw [hr2 rfl]
        rw [SeasonalDate.mk.injEq]
        exact ⟨rfl, rfl, by omega⟩
      · rw [if_neg (by omega : ¬ dd = 0), if_neg (by omega : ¬ 71 ≤ dd)]
        have hsp := seasonal_fromordinal_spec (days_before_year y + 0 + dd - 11) y (dd - 1)
          h1 (by omega) (by omega) (by rw [ite_leap_true hb]; omega) (by omega)
        rw [hsp]
        obtain ⟨hr1, -, -, -⟩ :=
          seasonal_fyo_spec y (dd - 1) (by omega) (by rw [ite_leap_true hb]; omega)
        rw [hr1 (by omega)]
        rw [SeasonalDate.mk.injEq]
        exact ⟨rfl, rfl, by omega⟩
      · rw [if_neg (by omega : ¬ dd = 0), if_pos hc]
        have hsp := seasonal_fromordinal_spec (days_before_year y + 0 + (dd + 1) - 11) y dd
          h1 (by omega) (by omega) (by rw [ite_leap_true hb]; omega) (by omega)
        rw [hsp]
        obtain ⟨-, -, hr3, -⟩ :=
          seasonal_fyo_spec y dd (by omega) (by rw [ite_leap_true hb]; omega)
        rw [hr3 (by omega) (by rw [ite_leap_true hb]; omega)]
    · rw [if_neg (by rintro ⟨-, hq⟩; omega)]
      rw [if_neg (by rintro ⟨hq, -⟩; omega)] at h5
      obtain ⟨hba, hbb, hbc⟩ := season_start_bounds_true s h3 h4
      have hbc2 := hbc hs2
      have hsp := seasonal_fromordinal_spec (days_before_year y + season_start true s + dd - 11)
        y (season_start true s + dd - 1)
        h1 (by omega) (by omega) (by rw [ite_leap_true hb]; omega) (by omega)
      rw [hsp]
      obtain ⟨-, -, -, hr4⟩ :=
        seasonal_fyo_spec y (season_start true s + dd - 1) (by omega)
          (by rw [ite_leap_true hb]; omega)
      obtain ⟨s2, hs2a, hs2b, hs2c, hs2d, hs2e⟩ :=
        hr4 (by rw [ite_leap_true hb]; omega)
      rw [hb] at hs2c hs2d hs2e
      rw [hs2e]
      have hsu : s2 = s :=
        season_unique2 true s2 s (season_start true s + dd - 1) hs2a hs2b hs2 h4
          hs2c hs2d (by omega) (by omega)
      subst hsu
      rw [SeasonalDate.mk.injEq]
      exact ⟨rfl, rfl, by omega⟩

theorem digit_val_digit_char (v : Int) (h0 : 0 ≤ v) (h9 : v ≤ 9) :
    digit_val (digit_char v) = some v := by
  interval_cases v <;> decide

theorem parse_int_pad4 (n : Int) (h0 : 0 ≤ n) (h : n ≤ 9999) :
    parse_int (pad4 n) = some n := by
  have e1 := digit_val_digit_char (n / 1000 % 10) (by omega) (by omega)
  have e2 := digit_val_digit_char (n / 100 % 10) (by omega) (by omega)
  have e3 := digit_val_digit_char (n / 10 % 10) (by omega) (by omega)
  have e4 := digit_val_digit_char (n % 10) (by omega) (by omega)
  simp only [parse_int, pad4, parse_digits, e1, e2, e3, e4, List.isEmpty_cons,
    Bool.false_eq_true, if_false, Option.some.injEq]
  omega

theorem parse_int_pad2 (n : Int) (h0 : 0 ≤ n) (h : n ≤ 99) :
    parse_int (pad2 n) = some n := by
  have e1 := digit_val_digit_char (n / 10 % 10) (by omega) (by omega)
  have e2 := digit_val_digit_char (n % 10) (by omega) (by omega)
  simp only [parse_int, pad2, parse_digits, e1, e2, List.isEmpty_cons,
    Bool.false_eq_true, if_false, Option.some.injEq]
  omega

theorem parse_iso_chars (y m d : Int) (hy0 : 0 ≤ y) (hy : y ≤ 9999)
    (hm0 : 0 ≤ m) (hm : m ≤ 99) (hd0 : 0 ≤ d) (hd : d ≤ 99) :
    parse_isoformat_date (iso_chars y m d) = some (y, m, d) := by
  have h4 := parse_int_pad4 y hy0 hy
  have h2m := parse_int_pad2 m hm0 hm
  have h2d := parse_int_pad2 d hd0 hd
  simp only [pad4, pad2] at h4 h2m h2d
  simp only [iso_chars, pad4, pad2, List.cons_append, List.nil_append]
  simp only [parse_isoformat_date, List.length_cons, List.length_nil]
  norm_num
  simp only [List.take_succ_cons, List.take_zero, List.drop_succ_cons, List.drop_zero,
    List.getD_cons_succ, List.getD_cons_zero, h4, h2m, h2d]

theorem month_len_le (L : Bool) (m : Int) : month_len L m ≤ 29 := by
  unfold month_len
  split_ifs <;> omega

theorem ifc_fromisoformat_isoformat (d : IFCDate) (h : d.valid) :
    IFCDate.fromisoformat d.isoformat = some d := by
  obtain ⟨h1, h2, h3, h4, h5, h6⟩ := h
  rw [ifc_days_in_month_eq] at h6
  have hle := month_len_le (is_leap_year d.year) d.month
  have hp := parse_iso_chars d.year d.month d.day (by omega) h2 (by omega) (by omega)
    (by omega) (by omega)
  unfold IFCDate.fromisoformat IFCDate.isoformat
  rw [hp]
  dsimp only
  rw [if_pos (show (IFCDate.mk d.year d.month d.day).valid from
    ⟨h1, h2, h3, h4, h5, by rw [ifc_days_in_month_eq]; exact h6⟩)]

/-- Successor step inside a year for the IFC calendar: the (month, day) pair is
lexicographically nondecreasing, and a month change lands on day 1. -/
theorem ifc_succ (n : Int) (h1 : 1 ≤ n) (h2 : n + 1 ≤ 3652059)
    (hy : (IFCDate.fromordinal n).year = (IFCDate.fromordinal (n + 1)).year) :
    period_day_le (IFCDate.fromordinal n).month (IFCDate.fromordinal n).day
      (IFCDate.fromordinal (n + 1)).month (IFCDate.fromordinal (n + 1)).day ∧
    ((IFCDate.fromordinal (n + 1)).month ≠ (IFCDate.fromordinal n).month →
      (IFCDate.fromordinal (n + 1)).day = 1) := by
  obtain ⟨y, k, m, hy1, hy9, hk0, hk1, ho, hm1, hm13, hms, hml, heq⟩ :=
    ifc_ord_spec n h1 (by omega)
  obtain ⟨y', k', m', hy1', hy9', hk0', hk1', ho', hm1', hm13', hms', hml', heq'⟩ :=
    ifc_ord_spec (n + 1) (by omega) h2
  rw [heq, heq'] at hy ⊢
  dsimp only at hy ⊢
  obtain ⟨rfl, hkk⟩ : y = y' ∧ k' = k + 1 := by
    refine ⟨hy, ?_⟩
    rw [hy] at ho
    omega
  subst hkk
  have hmono : m ≤ m' := by
    by_contra hc
    push_neg at hc
    have := month_start_add_len_le (is_leap_year y) m' m hm1' hc hm13
    omega
  rcases eq_or_lt_of_le hmono with hmm | hmm
  · subst hmm
    constructor
    · right
      exact ⟨rfl, by omega⟩
    · intro hne
      exact absurd rfl hne
  · have hcross := month_start_add_len_le (is_leap_year y) m m' hm1 hmm hm13'
    constructor
    · left
      exact hmm
    · intro hne
      omega

theorem seasonal_fyo_year (y k : Int) : (SeasonalDate.from_year_and_ordinal y k).year = y :=
  rfl

theorem season_start_step (L : Bool) (a b : Int) (h1 : 1 ≤ a) (h : a < b) (h2 : b ≤ 5) :
    season_start L a + 73 ≤ season_start L b := by
  cases L
  · simp [season_start]
    omega
  · simp [season_start]
    split_ifs <;> omega

/-- Successor step inside a year for the Seasonal calendar, restricted to steps where
both results are valid and the new date is not the leap day (day 0): the (season, day)
pair is lexicographically nondecreasing and a season change lands on day 1. -/
theorem seasonal_succ (n : Int) (h1 : 1 ≤ n) (h2 : n + 1 ≤ 3652048)
    (hv1 : (SeasonalDate.fromordinal n).valid)
    (hv2 : (SeasonalDate.fromordinal (n + 1)).valid)
    (hy : (SeasonalDate.fromordinal n).year = (SeasonalDate.fromordinal (n + 1)).year)
    (hnl : (SeasonalDate.fromordinal (n + 1)).day ≠ 0) :
    period_day_le (SeasonalDate.fromordinal n).season (SeasonalDate.fromordinal n).day
      (SeasonalDate.fromordinal (n + 1)).season (SeasonalDate.fromordinal (n + 1)).day ∧
    ((SeasonalDate.fromordinal (n + 1)).season ≠ (SeasonalDate.fromordinal n).season →
      (SeasonalDate.fromordinal (n + 1)).day = 1) := by
  obtain ⟨y, k, m0, hy1, hy9, hk0, hk1, ho, -, -, -, -, -⟩ :=
    ifc_ord_spec (n + 11) (by omega) (by omega)
  obtain ⟨y2, k2, m02, hy12, hy92, hk02, hk12, ho2, -, -, -, -, -⟩ :=
    ifc_ord_spec (n + 1 + 11) (by omega) (by omega)
  have heq := seasonal_fromordinal_spec n y k hy1 (by omega) hk0 hk1 (by omega)
  have heq2 := seasonal_fromordinal_spec (n + 1) y2 k2 hy12 (by omega) hk02 hk12 (by omega)
  rw [heq, heq2] at hy
  rw [seasonal_fyo_year, seasonal_fyo_year] at hy
  obtain ⟨rfl, hkk⟩ : y = y2 ∧ k2 = k + 1 := by
    refine ⟨hy, ?_⟩
    rw [hy] at ho
    omega
  subst hkk
  rw [heq] at hv1 ⊢
  rw [heq2] at hv2 hnl ⊢
  obtain ⟨hr1, hr2, hr3, hr4⟩ := seasonal_fyo_spec y k hk0 hk1
  obtain ⟨hs1, hs2, hs3, hs4⟩ := seasonal_fyo_spec y (k + 1) (by omega) hk12
  cases hb : is_leap_year y
  · rw [ite_leap_false hb] at hk1 hk12
    rcases (by omega : k + 1 ≤ 69 ∨ k + 1 = 70 ∨ k = 70 ∨ (71 ≤ k ∧ k + 1 ≤ 72) ∨
        k + 1 = 73 ∨ 73 ≤ k) with hc | hc | hc | hc | hc | hc
    · rw [hr1 (by omega), hs1 hc]
      dsimp only
      constructor
      · right
        exact ⟨rfl, by omega⟩
      · intro hne
        exact absurd rfl hne
    · exfalso
      rw [hs2 (by omega)] at hv2
      obtain ⟨-, -, -, -, hq5, -⟩ := hv2
      dsimp only at hq5
      rw [hb] at hq5
      rw [if_neg (by simp)] at hq5
      omega
    · exfalso
      rw [hr2 hc] at hv1
      obtain ⟨-, -, -, -, hq5, -⟩ := hv1
      dsimp only at hq5
      rw [hb] at hq5
      rw [if_neg (by simp)] at hq5
      omega
    · rw [hr3 (by omega) (by rw [ite_leap_false hb]; omega),
        hs3 (by omega) (by rw [ite_leap_false hb]; omega)]
      dsimp only
      constructor
      · right
        exact ⟨rfl, by omega⟩
      · intro hne
        exact absurd rfl hne
    · obtain ⟨s2, hs2a, hs2b, hs2c, hs2d, hs2e⟩ := hs4 (by rw [ite_leap_false hb]; omega)
      rw [hr3 (by omega) (by rw [ite_leap_false hb]; omega), hs2e]
      rw [hb] at hs2c hs2d
      have hsb := season_start_bounds_false s2 (by omega) hs2b
      have hss2 : season_start (is_leap_year y) s2 = 73 := by
        rw [hb]
        have := hsb.2.2 hs2a
        omega
      dsimp only
      constructor
      · left
        omega
      · intro hne
        omega
    · obtain ⟨s1, hs1a, hs1b, hs1c, hs1d, hs1e⟩ := hr4 (by rw [ite_leap_false hb]; omega)
      obtain ⟨s2, hs2a, hs2b, hs2c, hs2d, hs2e⟩ := hs4 (by rw [ite_leap_false hb]; omega)
      rw [hs1e, hs2e]
      rw [hb] at hs1c hs1d hs2c hs2d ⊢
      dsimp only
      have hmono : s1 ≤ s2 := by
        by_contra hcx
        push_neg at hcx
        have := season_start_step false s2 s1 (by omega) hcx hs1b
        omega
      rcases eq_or_lt_of_le hmono with hss | hss
      · subst hss
        constructor
        · right
          exact ⟨rfl, by omega⟩
        · intro hne
          exact absurd rfl hne
      · have hstep := season_start_step false s1 s2 (by omega) hss hs2b
        constructor
        · left
          exact hss
        · intro hne
          omega
  · rw [ite_leap_true hb] at hk1 hk12
    rcases (by omega : k + 1 ≤ 69 ∨ k + 1 = 70 ∨ k = 70 ∨ (71 ≤ k ∧ k + 1 ≤ 73) ∨
        k + 1 = 74 ∨ 74 ≤ k) with hc | hc | hc | hc | hc | hc
    · rw [hr1 (by omega), hs1 hc]
      dsimp only
      constructor
      · right
        exact ⟨rfl, by omega⟩
      · intro hne
        exact absurd rfl hne
    · exfalso
      rw [hs2 (by omega)] at hnl
      dsimp only at hnl
      exact hnl rfl
    · rw [hr2 hc, hs3 (by omega) (by rw [ite_leap_true hb]; omega)]
      dsimp only
      constructor
      · right
        exact ⟨rfl, by omega⟩
      · intro hne
        exact absurd rfl hne
    · rw [hr3 (by omega) (by rw [ite_leap_true hb]; omega),
        hs3 (by omega) (by rw [ite_leap_true hb]; omega)]
      dsimp only
      constructor
      · right
        exact ⟨rfl, by omega⟩
      · intro hne
        exact absurd rfl hne
    · obtain ⟨s2, hs2a, hs2b, hs2c, hs2d, hs2e⟩ := hs4 (by rw [ite_leap_true hb]; omega)
      rw [hr3 (by omega) (by rw [ite_leap_true hb]; omega), hs2e]
      rw [hb] at hs2c hs2d
      have hsb := season_start_bounds_true s2 (by omega) hs2b
      have hss2 : season_start (is_leap_year y) s2 = 74 := by
        rw [hb]
        have := hsb.2.2 hs2a
        omega
      dsimp only
      constructor
      · left
        omega
      · intro hne
        omega
    · obtain ⟨s1, hs1a, hs1b, hs1c, hs1d, hs1e⟩ := hr4 (by rw [ite_leap_true hb]; omega)
      obtain ⟨s2, hs2a, hs2b, hs2c, hs2d, hs2e⟩ := hs4 (by rw [ite_leap_true hb]; omega)
      rw [hs1e, hs2e]
      rw [hb] at hs1c hs1d hs2c hs2d ⊢
      dsimp only
      have hmono : s1 ≤ s2 := by
        by_contra hcx
        push_neg at hcx
        have := season_start_step true s2 s1 (by omega) hcx hs1b
        omega
      rcases eq_or_lt_of_le hmono with hss | hss
      · subst hss
        constructor
        · right
          exact ⟨rfl, by omega⟩
        · intro hne
          exact absurd rfl hne
      · have hstep := season_start_step true s1 s2 (by omega) hss hs2b
        constructor
        · left
          exact hss
        · intro hne
          omega

theorem positivist_A (o : Int) (h1 : 1 ≤ o) (h2 : o ≤ 3652059) :
    (PositivistDate.fromordinal o).valid ∧ (PositivistDate.fromordinal o).toordinal = o :=
  ifc_A o h1 h2

theorem positivist_B (d : PositivistDate) (h : d.valid) :
    PositivistDate.fromordinal d.toordinal = d := by
  unfold PositivistDate.fromordinal PositivistDate.toordinal
  rw [ifc_B d.toIFC h]
  rfl

theorem positivist_fromisoformat_eq (cs : List Char) :
    PositivistDate.fromisoformat cs =
      Option.map PositivistDate.ofIFC (IFCDate.fromisoformat cs) := by
  unfold PositivistDate.fromisoformat IFCDate.fromisoformat
  cases parse_isoformat_date cs with
  | none => rfl
  | some t =>
    obtain ⟨y, m, dd⟩ := t
    dsimp only
    split_ifs with h1 h2 h3
    · rfl
    · exact absurd h1 h2
    · exact absurd h3 h1
    · rfl

/-- Claim C1 counterexample: ordinal 737119 lies in 1..3,652,059 yet
`SeasonalDate.fromordinal` fails on it — it constructs (2019, 1, 0), day 0 of a
non-leap year, which its own validation rejects (a ValueError in the source).  So the
round trip does not hold for every calendar as claimed. -/
theorem c1_counterexample :
    SeasonalDate.fromordinal 737119 = ⟨2019, 1, 0⟩ ∧
    ¬ (SeasonalDate.fromordinal 737119).valid := by
  decide

/-- Claim C1 (amended): `fromordinal(toordinal(d))= d` and
`toordinal(fromordinal(n)) = n` with `fromordinal` succeeding hold in full for the
IFC and Positivist calendars on 1..3,652,059; for the Seasonal calendar the
date-to-ordinal trip holds for every valid date except season-1 days 71..73 of
non-leap years, and the ordinal-to-date trip holds for 1 ≤ n ≤ 3,652,048 away from
the broken day-70..72 slots of non-leap years (`seasonal_broken`). -/
theorem c1_roundtrip :
    (∀ d : IFCDate, d.valid → IFCDate.fromordinal d.toordinal = d) ∧
    (∀ n : Int, 1 ≤ n → n ≤ 3652059 →
      (IFCDate.fromordinal n).valid ∧ (IFCDate.fromordinal n).toordinal = n) ∧
    (∀ d : PositivistDate, d.valid → PositivistDate.fromordinal d.toordinal = d) ∧
    (∀ n : Int, 1 ≤ n → n ≤ 3652059 →
      (PositivistDate.fromordinal n).valid ∧ (PositivistDate.fromordinal n).toordinal = n) ∧
    (∀ d : SeasonalDate, d.valid →
      ¬ (is_leap_year d.year = false ∧ d.season = 1 ∧ 71 ≤ d.day) →
      SeasonalDate.fromordinal d.toordinal = d) ∧
    (∀ n : Int, 1 ≤ n → n ≤ 3652048 → ¬ seasonal_broken n →
      (SeasonalDate.fromordinal n).valid ∧ (SeasonalDate.fromordinal n).toordinal = n) :=
  ⟨ifc_B, ifc_A, positivist_B, positivist_A, seasonal_B, seasonal_A⟩

theorem c1_witness :
    SeasonalDate.fromordinal (SeasonalDate.toordinal ⟨2020, 1, 0⟩) = ⟨2020, 1, 0⟩ :=
  c1_roundtrip.2.2.2.2.1 ⟨2020, 1, 0⟩ (by decide) (by decide)

/-- Claim C2: the code contradicts the claim (and its own class docstring and
`_days_in_month` table).  Validation is inherited from ifc.py, so (2019, 13, 29) is
valid as claimed, but (2020, 13, 30) — the Festival of Holy Women of a leap year —
is rejected, while (2020, 6, 29) is accepted although every Positivist month other
than the 13th should have 28 days.  The class's own (never called) `_days_in_month`
gives month 13 thirty days in 2020 and month 6 twenty-eight. -/
theorem c2_positivist_validation :
    PositivistDate.valid ⟨2019, 13, 29⟩ ∧
    ¬ PositivistDate.valid ⟨2020, 13, 30⟩ ∧
    PositivistDate.valid ⟨2020, 6, 29⟩ ∧
    (positivist_days_in_month 2020).getD 12 0 = 30 ∧
    (positivist_days_in_month 2020).getD 5 0 = 28 := by
  decide

/-- Claim C3 counterexample: ordinals 1154 and 1155 both fall in Seasonal year 4, but
the (season, day) pair steps from (1, 70) to (1, 0) — the inserted leap day —
which is a lexicographic decrease, contradicting the claim as stated. -/
theorem c3_counterexample :
    SeasonalDate.fromordinal 1154 = ⟨4, 1, 70⟩ ∧
    SeasonalDate.fromordinal 1155 = ⟨4, 1, 0⟩ ∧
    ¬ period_day_le 1 70 1 0 := by
  decide

/-- Claim C3 (amended): for same-year ordinal successors the (period, day) pair is
lexicographically nondecreasing and a period change resets the day to 1 — for IFC and
Positivist on all of 1..3,652,059, and for the Seasonal calendar on steps between
valid dates whose successor is not the inserted leap day (season 1, day 0). -/
theorem c3_monotone :
    (∀ n : Int, 1 ≤ n → n + 1 ≤ 3652059 →
      (IFCDate.fromordinal n).year = (IFCDate.fromordinal (n + 1)).year →
      period_day_le (IFCDate.fromordinal n).month (IFCDate.fromordinal n).day
        (IFCDate.fromordinal (n + 1)).month (IFCDate.fromordinal (n + 1)).day ∧
      ((IFCDate.fromordinal (n + 1)).month ≠ (IFCDate.fromordinal n).month →
        (IFCDate.fromordinal (n + 1)).day = 1)) ∧
    (∀ n : Int, 1 ≤ n → n + 1 ≤ 3652059 →
      (PositivistDate.fromordinal n).year = (PositivistDate.fromordinal (n + 1)).year →
      period_day_le (PositivistDate.fromordinal n).month (PositivistDate.fromordinal n).day
        (PositivistDate.fromordinal (n + 1)).month (PositivistDate.fromordinal (n + 1)).day ∧
      ((PositivistDate.fromordinal (n + 1)).month ≠ (PositivistDate.fromordinal n).month →
        (PositivistDate.fromordinal (n + 1)).day = 1)) ∧
    (∀ n : Int, 1 ≤ n → n + 1 ≤ 3652048 →
      (SeasonalDate.fromordinal n).valid → (SeasonalDate.fromordinal (n + 1)).valid →
      (SeasonalDate.fromordinal n).year = (SeasonalDate.fromordinal (n + 1)).year →
      (SeasonalDate.fromordinal (n + 1)).day ≠ 0 →
      period_day_le (SeasonalDate.fromordinal n).season (SeasonalDate.fromordinal n).day
        (SeasonalDate.fromordinal (n + 1)).season (SeasonalDate.fromordinal (n + 1)).day ∧
      ((SeasonalDate.fromordinal (n + 1)).season ≠ (SeasonalDate.fromordinal n).season →
        (SeasonalDate.fromordinal (n + 1)).day = 1)) :=
  ⟨ifc_succ, fun n h1 h2 hy => ifc_succ n h1 h2 hy, seasonal_succ⟩

theorem c3_witness :
    period_day_le (IFCDate.fromordinal 1).month (IFCDate.fromordinal 1).day
      (IFCDate.fromordinal (1 + 1)).month (IFCDate.fromordinal (1 + 1)).day ∧
    ((IFCDate.fromordinal (1 + 1)).month ≠ (IFCDate.fromordinal 1).month →
      (IFCDate.fromordinal (1 + 1)).day = 1) :=
  c3_monotone.1 1 (by norm_num) (by decide) (by decide)

/-- Claim C4: the code contradicts the claim (whose formula matches the class
docstring's uniform 28-day months).  PositivistDate inherits ifc.py's `toordinal`,
whose month table shifts by one day after month 6 in leap years, so
`weekday()` of the valid date (2020, 7, 1) returns 1, while the claimed formula
`(dayOfYear - 1) mod 7` with `dayOfYear = 28*(month-1) + day` (equivalently
`(day - 1) mod 7`) gives 0. -/
theorem c4_positivist_weekday :
    PositivistDate.valid ⟨2020, 7, 1⟩ ∧
    PositivistDate.weekday ⟨2020, 7, 1⟩ = 1 ∧
    (28 * (7 - 1) + 1 - 1) % 7 = 0 ∧
    PositivistDate.weekday ⟨2019, 13, 29⟩ = 7 := by
  decide

/-- Claim C5: the `n1 == 4 or n100 == 4` branch of `fromordinal` fires exactly on the
366th day of a leap year (`n0 = days_before_year y + 366` with `y` leap), and there
`IFCDate.fromordinal` returns (y, 13, 29), the last day (0-based index 365) of the
previous candidate year. -/
theorem c5_leap_branch :
    (∀ n0 : Int, 1 ≤ n0 → n0 ≤ 3652059 →
      (leap_branch n0 ↔
        ∃ y, 1 ≤ y ∧ y ≤ 9999 ∧ is_leap_year y = true ∧
          n0 = days_before_year y + 366)) ∧
    (∀ y : Int, 1 ≤ y → y ≤ 9999 → is_leap_year y = true →
      IFCDate.fromordinal (days_before_year y + 366) = ⟨y, 13, 29⟩) := by
  constructor
  · intro n0 h1 h2
    obtain ⟨hbr1, hbr2⟩ :=
      greg_decomp (n0 - 1) ((n0 - 1) / 146097) ((n0 - 1) % 146097)
        ((n0 - 1) % 146097 / 36524) ((n0 - 1) % 146097 % 36524)
        ((n0 - 1) % 146097 % 36524 / 1461) ((n0 - 1) % 146097 % 36524 % 1461)
        ((n0 - 1) % 146097 % 36524 % 1461 / 365) ((n0 - 1) % 146097 % 36524 % 1461 % 365)
        ((n0 - 1) / 146097 * 400 + (n0 - 1) % 146097 / 36524 * 100 +
          (n0 - 1) % 146097 % 36524 / 1461 * 4 +
          (n0 - 1) % 146097 % 36524 % 1461 / 365 + 1)
        (by omega) (by omega) rfl rfl rfl rfl rfl rfl rfl rfl rfl
    unfold leap_branch
    rw [DI400Y_eq, DI100Y_eq, DI4Y_eq]
    constructor
    · intro hb
      obtain ⟨h2', h3', hleap, heq⟩ := hbr1 hb
      obtain ⟨Y, hY1, hYl, hYe⟩ :
          ∃ Y, 1 ≤ Y ∧ is_leap_year Y = true ∧ n0 - 1 = days_before_year Y + 365 :=
        ⟨_, by omega, hleap, by omega⟩
      have hY9 : Y ≤ 9999 := by
        by_contra hc
        have hd := days_before_year_mono (show (9999 : Int) ≤ Y from by omega)
        rw [days_before_year_9999] at hd
        omega
      exact ⟨Y, hY1, hY9, hYl, by omega⟩
    · rintro ⟨y, hy1, hy9, hyl, hye⟩
      by_contra hnb
      obtain ⟨hYE1, -, hnf0, hnf364, heq, -⟩ := hbr2 hnb
      obtain ⟨-, hkk⟩ :=
        year_day_unique y 365 _ _ hy1 (by norm_num) (by rw [hyl]; norm_num) hYE1 hnf0
          (by split_ifs <;> omega) (by omega)
      omega
  · intro y hy1 hy9 hyl
    obtain ⟨m, hm1, hm2, hms, hml, heq⟩ :=
      ifc_fromordinal_spec y 365 hy1 (by omega) (by norm_num) (by rw [hyl]; norm_num)
    have hm13 : m = 13 := by
      rw [hyl] at hms hml
      refine month_unique true m 13 365 hm1 hm2 (by norm_num) (by norm_num) hms hml ?_ ?_
      · norm_num [month_start]
      · norm_num [month_start, month_len]
    subst hm13
    rw [show days_before_year y + 366 = days_before_year y + 365 + 1 from by omega, heq]
    rw [IFCDate.mk.injEq]
    refine ⟨rfl, rfl, ?_⟩
    rw [hyl]
    norm_num [month_start]

theorem c5_witness : IFCDate.fromordinal (days_before_year 4 + 366) = ⟨4, 13, 29⟩ :=
  c5_leap_branch.2 4 (by norm_num) (by norm_num) (by decide)

/-- Claim C6: for every valid IFC date, `weekday()` is 7 on (13, 29), 8 on (6, 29),
and otherwise equals the 0-based day-of-year (toordinal minus days-before-year minus
one) incremented by 1 for months ≥ 7 of leap years, all modulo 7. -/
theorem c6_ifc_weekday (d : IFCDate) (h : d.valid) :
    (d.month = 13 ∧ d.day = 29 → d.weekday = 7) ∧
    (d.month = 6 ∧ d.day = 29 → d.weekday = 8) ∧
    (¬ (d.month = 13 ∧ d.day = 29) → ¬ (d.month = 6 ∧ d.day = 29) →
      d.weekday = (d.toordinal - days_before_year d.year - 1 +
        (if 7 ≤ d.month ∧ is_leap_year d.year = true then 1 else 0)) % 7) := by
  unfold IFCDate.weekday
  refine ⟨?_, ?_, ?_⟩
  · intro hc
    rw [if_pos hc]
  · intro hc
    rw [if_neg (by rintro ⟨h13, -⟩; omega), if_pos hc]
  · intro hna hnb
    rw [if_neg hna, if_neg hnb]
    split_ifs with hq
    · congr 1
      omega
    · congr 1
      omega

theorem c6_witness : IFCDate.weekday ⟨2019, 1, 1⟩ = 0 := by
  have h := (c6_ifc_weekday ⟨2019, 1, 1⟩ (by decide)).2.2 (by decide) (by decide)
  rw [h]
  decide

/-- Claim C7 counterexample: `SeasonalDate.isoformat` of (2019, 1, 1) is the
proleptic Gregorian string "2018-12-21" of the same ordinal (inherited from
`_base.Date.isoformat`), not the calendar's own "2019-01-01" as claimed. -/
theorem c7_counterexample :
    SeasonalDate.isoformat ⟨2019, 1, 1⟩ = iso_chars 2018 12 21 ∧
    SeasonalDate.isoformat ⟨2019, 1, 1⟩ ≠ iso_chars 2019 1 1 := by
  decide

/-- Claim C7 (amended): for the IFC and Positivist calendars, `isoformat` renders the
calendar's own numbering as a zero-padded `YYYY-MM-DD` string and `fromisoformat`
reconstructs the date from it; the Seasonal calendar instead inherits the base
class's Gregorian rendering. -/
theorem c7_isoformat :
    (∀ d : IFCDate, d.valid →
      d.isoformat = iso_chars d.year d.month d.day ∧
      IFCDate.fromisoformat d.isoformat = some d) ∧
    (∀ d : PositivistDate, d.valid →
      d.isoformat = iso_chars d.year d.month d.day ∧
      PositivistDate.fromisoformat d.isoformat = some d) := by
  constructor
  · intro d hd
    exact ⟨rfl, ifc_fromisoformat_isoformat d hd⟩
  · intro d hd
    refine ⟨rfl, ?_⟩
    rw [positivist_fromisoformat_eq,
      show PositivistDate.isoformat d = IFCDate.isoformat d.toIFC from rfl,
      ifc_fromisoformat_isoformat d.toIFC hd]
    rfl

theorem c7_witness :
    IFCDate.isoformat ⟨2019, 13, 29⟩ = iso_chars 2019 13 29 ∧
    IFCDate.fromisoformat (IFCDate.isoformat ⟨2019, 13, 29⟩) = some ⟨2019, 13, 29⟩ :=
  c7_isoformat.1 ⟨2019, 13, 29⟩ (by decide)

/-- Claim C8 counterexample: (9999, 5, 73) is a valid SeasonalDate (ordinal
3,652,048) and adding two days keeps the ordinal inside 1..3,652,059, yet `__add__`
neither succeeds nor raises OverflowError: `fromordinal` raises ValueError (year
10000), contradicting the claim as stated. -/
theorem c8_counterexample :
    SeasonalDate.valid ⟨9999, 5, 73⟩ ∧
    SeasonalDate.add ⟨9999, 5, 73⟩ 2 = AddResult.invalid := by
  decide

/-- Claim C8 (amended): for IFC and Positivist, `d + t` raises OverflowError exactly
when `toordinal(d) + t` lies outside 1..3,652,059 and otherwise returns the valid
date with that ordinal.  The Seasonal calendar raises OverflowError under exactly the
same range test, but succeeds with the correct ordinal only for results in
1..3,652,048 away from the broken non-leap day-70..72 slots; other in-range results
raise ValueError inside `fromordinal`. -/
theorem c8_add :
    (∀ (d : IFCDate) (t : Int), d.valid →
      (IFCDate.add d t = AddResult.overflow ↔
        (d.toordinal + t < 1 ∨ 3652059 < d.toordinal + t)) ∧
      (1 ≤ d.toordinal + t → d.toordinal + t ≤ 3652059 →
        IFCDate.add d t = AddResult.ok (IFCDate.fromordinal (d.toordinal + t)) ∧
        (IFCDate.fromordinal (d.toordinal + t)).valid ∧
        (IFCDate.fromordinal (d.toordinal + t)).toordinal = d.toordinal + t)) ∧
    (∀ (d : PositivistDate) (t : Int), d.valid →
      (PositivistDate.add d t = AddResult.overflow ↔
        (d.toordinal + t < 1 ∨ 3652059 < d.toordinal + t)) ∧
      (1 ≤ d.toordinal + t → d.toordinal + t ≤ 3652059 →
        PositivistDate.add d t =
          AddResult.ok (PositivistDate.fromordinal (d.toordinal + t)) ∧
        (PositivistDate.fromordinal (d.toordinal + t)).valid ∧
        (PositivistDate.fromordinal (d.toordinal + t)).toordinal = d.toordinal + t)) ∧
    (∀ (d : SeasonalDate) (t : Int), d.valid →
      (SeasonalDate.add d t = AddResult.overflow ↔
        (d.toordinal + t < 1 ∨ 3652059 < d.toordinal + t)) ∧
      (1 ≤ d.toordinal + t → d.toordinal + t ≤ 3652048 →
        ¬ seasonal_broken (d.toordinal + t) →
        SeasonalDate.add d t =
          AddResult.ok (SeasonalDate.fromordinal (d.toordinal + t)) ∧
        (SeasonalDate.fromordinal (d.toordinal + t)).valid ∧
        (SeasonalDate.fromordinal (d.toordinal + t)).toordinal = d.toordinal + t)) := by
  refine ⟨?_, ?_, ?_⟩
  · intro d t hd
    unfold IFCDate.add
    dsimp only
    split_ifs with hc hv
    · refine ⟨⟨fun hq => hq.elim, fun hq => by omega⟩, ?_⟩
      intro ha hb
      exact ⟨rfl, (ifc_A (d.toordinal + t) (by omega) hc.2).1,
        (ifc_A (d.toordinal + t) (by omega) hc.2).2⟩
    · exact absurd (ifc_A (d.toordinal + t) (by omega) hc.2).1 hv
    · refine ⟨⟨fun hq => by omega, fun hq => rfl⟩, ?_⟩
      intro ha hb
      exact absurd (⟨by omega, by omega⟩ : 0 < d.toordinal + t ∧ d.toordinal + t ≤ 3652059) hc
  · intro d t hd
    unfold PositivistDate.add
    dsimp only
    split_ifs with hc hv
    · refine ⟨⟨fun hq => hq.elim, fun hq => by omega⟩, ?_⟩
      intro ha hb
      exact ⟨rfl, (positivist_A (d.toordinal + t) (by omega) hc.2).1,
        (positivist_A (d.toordinal + t) (by omega) hc.2).2⟩
    · exact absurd (positivist_A (d.toordinal + t) (by omega) hc.2).1 hv
    · refine ⟨⟨fun hq => by omega, fun hq => rfl⟩, ?_⟩
      intro ha hb
      exact absurd (⟨by omega, by omega⟩ : 0 < d.toordinal + t ∧ d.toordinal + t ≤ 3652059) hc
  · intro d t hd
    unfold SeasonalDate.add
    dsimp only
    split_ifs with hc hv
    · refine ⟨⟨fun hq => hq.elim, fun hq => by omega⟩, ?_⟩
      intro ha hb hbk
      exact ⟨rfl, (seasonal_A (d.toordinal + t) (by omega) hb hbk).1,
        (seasonal_A (d.toordinal + t) (by omega) hb hbk).2⟩
    · refine ⟨⟨fun hq => hq.elim, fun hq => by omega⟩, ?_⟩
      intro ha hb hbk
      exact absurd (seasonal_A (d.toordinal + t) (by omega) hb hbk).1 hv
    · refine ⟨⟨fun hq => by omega, fun hq => rfl⟩, ?_⟩
      intro ha hb hbk
      exact absurd (⟨by omega, by omega⟩ : 0 < d.toordinal + t ∧ d.toordinal + t ≤ 3652059) hc

theorem c8_witness :
    IFCDate.add ⟨1, 1, 1⟩ 0 =
      AddResult.ok (IFCDate.fromordinal (IFCDate.toordinal ⟨1, 1, 1⟩ + 0)) :=
  (((c8_add.1 ⟨1, 1, 1⟩ 0 (by decide)).2 (by decide) (by decide))).1

/-- Claim C9: `replace(day=0)` on a valid leap-year season-1 date with day ≥ 1
silently keeps the original day (the `or`-based default treats the passed 0 as
falsy), returning a date equal to the original rather than the leap day or an
error. -/
theorem c9_replace_day_zero (d : SeasonalDate) (h : d.valid)
    (hl : is_leap_year d.year = true) (hs : d.season = 1) (hd : 1 ≤ d.day) :
    d.replace none none (some 0) = some d := by
  unfold SeasonalDate.replace
  dsimp only [pyOr]
  rw [if_pos (show (0 : Int) = 0 from rfl)]
  rw [if_pos h]

theorem c9_witness :
    SeasonalDate.replace ⟨2020, 1, 5⟩ none none (some 0) = some ⟨2020, 1, 5⟩ :=
  c9_replace_day_zero ⟨2020, 1, 5⟩ (by decide) (by decide) (by decide) (by decide)

/-- Claim C10: on valid IFC dates the structural lexicographic order on (year, month,
day) coincides with strict ordinal order, and `toordinal` is a bijection from valid
dates onto 1..3,652,059 (bounds, injectivity, surjectivity). -/
theorem c10_order :
    (∀ d1 d2 : IFCDate, d1.valid → d2.valid →
      (d1.lex_lt d2 ↔ d1.toordinal < d2.toordinal)) ∧
    (∀ d : IFCDate, d.valid → 1 ≤ d.toordinal ∧ d.toordinal ≤ 3652059) ∧
    (∀ d1 d2 : IFCDate, d1.valid → d2.valid → d1.toordinal = d2.toordinal → d1 = d2) ∧
    (∀ n : Int, 1 ≤ n → n ≤ 3652059 → ∃ d : IFCDate, d.valid ∧ d.toordinal = n) := by
  refine ⟨?_, ifc_toordinal_range, ifc_toordinal_inj, ?_⟩
  · intro d1 d2 v1 v2
    constructor
    · exact ifc_toordinal_lt d1 d2 v1 v2
    · intro hlt
      have htri : d1.lex_lt d2 ∨ d1 = d2 ∨ d2.lex_lt d1 := by
        unfold IFCDate.lex_lt
        obtain ⟨y1, m1, dd1⟩ := d1
        obtain ⟨y2, m2, dd2⟩ := d2
        simp only [IFCDate.mk.injEq]
        omega
      rcases htri with h' | h' | h'
      · exact h'
      · subst h'
        omega
      · have := ifc_toordinal_lt d2 d1 v2 v1 h'
        omega
  · intro n h1 h2
    exact ⟨IFCDate.fromordinal n, (ifc_A n h1 h2).1, (ifc_A n h1 h2).2⟩

theorem c10_witness :
    IFCDate.lex_lt ⟨2019, 1, 1⟩ ⟨2019, 1, 2⟩ ↔
      IFCDate.toordinal ⟨2019, 1, 1⟩ < IFCDate.toordinal ⟨2019, 1, 2⟩ :=
  c10_order.1 ⟨2019, 1, 1⟩ ⟨2019, 1, 2⟩ (by decide) (by decide)

end Theorems
